import Mathlib

/-!
# go-template-cli: configuration validation and the start command

A shallow embedding of `config/validate.go`, `cmd/root.go` and `cmd/start.go`.

* The configuration store (the process-wide viper instance) is a function from the
  key constants of package `config` to dynamically typed values; every `viper.Get`
  is a step of a state computation over that store.
* Go `error` values are a recursive data type; `nil` is `none`.
* Behaviour of the operating system and of external libraries that the sources only
  call (path resolution, file-path syntax check, integer parsing, process control) is
  taken as a parameter (`Env`, `Sys`); constants and helpers of package `config`
  that the validated files only reference are the fields of `Consts`.
-/

namespace GoTemplate

/-! ## Data model -/

/-- Keys of the configuration store: the key constants of package config. -/
inductive Key where
  | DaemonKey
  | LogFileNameKey
  | LogLevelKey
  | LogFormatKey
  | LogMaxSizeKey
  | LogMaxDaysKey
  | LogMaxBackupsKey
  | LogRotateOnStartupKey
  | LogStdoutKey
  | ServerAddrKey
  | ServerPidFileKey
  | ServerReadTimeoutKey
  | ServerWriteTimeoutKey
  deriving DecidableEq, Repr

/-- Dynamically typed values held by the store (what `viper.Get` returns as
`interface{}`): an unset key is `nil`; `other` stands for a value of a type none of
the `cast` conversions used here accepts (a map or a slice, say). -/
inductive Value where
  | nil
  | bool (b : Bool)
  | int (i : Int)
  | str (s : String)
  | other
  deriving DecidableEq, Repr

/-- Snapshot of the configuration store. -/
abbrev Store := Key → Value

/-- Message codes of package message that the embedded functions use. -/
inductive MsgCode where
  | ErrPrintHelpInfo
  | ErrInitConfig
  | ErrInitDefaultConfig
  | ErrBaseDir
  | ErrValidateConfig
  | ErrOverrideCommandLineArgs
  | ErrAbsoluteLogFilePath
  | ErrInitLogger
  | ErrRotateLogFile
  | ErrEmptyLogFileName
  | ErrNotValidLogFileName
  | ErrNotValidLogLevel
  | ErrNotValidLogFormat
  | ErrNotValidLogMaxSize
  | ErrNotValidLogMaxDays
  | ErrNotValidLogMaxBackups
  | ErrNotValidServerAddr
  | ErrNotValidServerPort
  | ErrNotValidPidFile
  | ErrNotValidServerReadTimeout
  | ErrNotValidServerWriteTimeout
  | ErrCheckServerPid
  | ErrCheckServerRunningStatus
  | ErrServerIsRunning
  | ErrStartAsForeground
  | ErrSavePidToFile
  | InfoServerStart
  deriving DecidableEq, Repr

/-- Target types of the `cast` conversions. -/
inductive CastTarget where
  | toBool
  | toString
  | toInt
  deriving DecidableEq, Repr

mutual
/-- Go error values. `cast` is the failure of a `cast.To…E` conversion, `lib` an error
returned by an external call, `message` a value built by `message.NewMessage`,
`multi` a `*multierror.Error` with its `Errors` slice, `traced` an error annotated
by `errors.Trace`. -/
inductive GoError where
  | cast (v : Value) (target : CastTarget)
  | lib (what : String)
  | message (code : MsgCode) (args : List MsgArg)
  | multi (errs : List GoError)
  | traced (e : GoError)
/-- Arguments handed to `message.NewMessage`: integers, strings, errors, and the text
of an error (`err.Error()`). -/
inductive MsgArg where
  | int (i : Int)
  | str (s : String)
  | err (e : GoError)
  | errText (e : GoError)
end

/-- The accumulator `*multierror.Error`. -/
structure MultiError where
  Errors : List GoError := []

/-- Constants of package config referenced by the validators and the start command,
together with its helper `TrimSpaceOfArg`. -/
structure Consts where
  ValidLogLevels : List String
  ValidLogFormats : List String
  MinLogMaxSize : Int
  MaxLogMaxSize : Int
  MinLogMaxDays : Int
  MaxLogMaxDays : Int
  MinLogMaxBackups : Int
  MaxLogMaxBackups : Int
  MinServerReadTimeout : Int
  MaxServerReadTimeout : Int
  MinServerWriteTimeout : Int
  MaxServerWriteTimeout : Int
  DefaultBaseDir : String
  DefaultCommandName : String
  DaemonArgTrue : String
  DaemonArgFalse : String
  TrimSpaceOfArg : String → String

/-- External behaviour the validators depend on: `filepath.IsAbs`, `filepath.Abs`,
`govalidator.IsFilePath` (its boolean result), `strconv.ParseInt(s, 0, 0)` as used by
`cast.ToIntE`, and the port constants of the utility library. -/
structure Env where
  IsAbs : String → Bool
  Abs : String → String × Option GoError
  IsFilePath : String → Bool
  ParseInt : String → Option Int
  MinPort : Int
  MaxPort : Int

/-! ## Library functions -/

/-- The constant `constant.EmptyString`. -/
def constant.EmptyString : String := ""

/-- The constant `constant.ColonString`, as the one character it consists of. -/
def constant.ColonString : Char := ':'

/-- The constant `constant.DefaultNormalExitCode`. -/
def constant.DefaultNormalExitCode : Int := 0

/-- The constant `constant.DefaultAbnormalExitCode`. -/
def constant.DefaultAbnormalExitCode : Int := 1

/-- The function `errors.Trace`: nil stays nil, any other error is annotated. -/
def errors.Trace (err : Option GoError) : Option GoError :=
  err.map GoError.traced

/-- The function `multierror.Append` with one appended error: a `*multierror.Error`
argument is flattened, any other non-nil error is appended, nil is skipped. -/
def multierror.Append (merr : MultiError) (err : Option GoError) : MultiError :=
  match err with
  | none => merr
  | some (GoError.multi es) => { Errors := merr.Errors ++ es }
  | some e => { Errors := merr.Errors ++ [e] }

/-- The method `ErrorOrNil`: nil when nothing was accumulated. -/
def MultiError.ErrorOrNil (merr : MultiError) : Option GoError :=
  if merr.Errors.length = 0 then none else some (GoError.multi merr.Errors)

/-- The function `message.NewMessage`. -/
def message.NewMessage (code : MsgCode) (args : List MsgArg) : GoError :=
  GoError.message code args

/-- The function `strconv.ParseBool`. -/
def strconv.ParseBool (s : String) : Option Bool :=
  if s ∈ ["1", "t", "T", "TRUE", "true", "True"] then some true
  else if s ∈ ["0", "f", "F", "FALSE", "false", "False"] then some false
  else none

/-- The function `cast.ToBoolE`. -/
def cast.ToBoolE (i : Value) : Bool × Option GoError :=
  match i with
  | Value.bool b => (b, none)
  | Value.nil => (false, none)
  | Value.int n => (n != 0, none)
  | Value.str s =>
    match strconv.ParseBool s with
    | some b => (b, none)
    | none => (false, some (GoError.cast i CastTarget.toBool))
  | Value.other => (false, some (GoError.cast i CastTarget.toBool))

/-- The function `strconv.Itoa`. -/
def strconv.Itoa (i : Int) : String :=
  toString i

/-- The function `cast.ToStringE`. -/
def cast.ToStringE (i : Value) : String × Option GoError :=
  match i with
  | Value.str s => (s, none)
  | Value.bool b => (if b then "true" else "false", none)
  | Value.int n => (strconv.Itoa n, none)
  | Value.nil => ("", none)
  | Value.other => ("", some (GoError.cast i CastTarget.toString))

/-- The function `cast.ToIntE`. -/
def cast.ToIntE (env : Env) (i : Value) : Int × Option GoError :=
  match i with
  | Value.int n => (n, none)
  | Value.str s =>
    match env.ParseInt s with
    | some n => (n, none)
    | none => (0, some (GoError.cast i CastTarget.toInt))
  | Value.bool b => (if b then 1 else 0, none)
  | Value.nil => (0, none)
  | Value.other => (0, some (GoError.cast i CastTarget.toInt))

/-- The predicate `unicode.IsSpace`. -/
def unicode.IsSpace (c : Char) : Bool :=
  let n := c.toNat
  (9 ≤ n && n ≤ 13) || n == 32 || n == 0x85 || n == 0xA0 || n == 0x1680
    || (0x2000 ≤ n && n ≤ 0x200a) || n == 0x2028 || n == 0x2029 || n == 0x202f
    || n == 0x205f || n == 0x3000

/-- The function `strings.TrimSpace`. -/
def strings.TrimSpace (s : String) : String :=
  String.mk (((s.toList.dropWhile unicode.IsSpace).reverse.dropWhile unicode.IsSpace).reverse)

/-- Splitting a character list at every occurrence of a separator character. -/
def splitChars (sep : Char) : List Char → List (List Char)
  | [] => [[]]
  | c :: cs =>
    if c = sep then [] :: splitChars sep cs
    else
      match splitChars sep cs with
      | [] => [[c]]
      | p :: ps => (c :: p) :: ps

/-- The function `strings.Split` for a one-character separator (the program only
splits on `constant.ColonString`). -/
def strings.Split (s : String) (sep : Char) : List String :=
  (splitChars sep s.toList).map String.mk

/-- Value of a string of decimal digits, most significant first; none when a
character is not a decimal digit. -/
def decimalValue : Nat → List Char → Option Nat
  | acc, [] => some acc
  | acc, c :: cs =>
    if 48 ≤ c.toNat ∧ c.toNat ≤ 57 then decimalValue (acc * 10 + (c.toNat - 48)) cs
    else none

/-- The function `strconv.Atoi` on a 64-bit platform: an optional sign, at least one
decimal digit, nothing else, and a value that fits the `int` type. -/
def strconv.Atoi (s : String) : Option Int :=
  let cs := s.toList
  let neg := cs.head? = some '-'
  let ds := if cs.head? = some '-' ∨ cs.head? = some '+' then cs.tail else cs
  if ds.length = 0 then none
  else
    match decimalValue 0 ds with
    | none => none
    | some n =>
      let v : Int := if neg then -(n : Int) else (n : Int)
      if v < -(2 : Int) ^ 63 ∨ (2 : Int) ^ 63 - 1 < v then none else some v

/-- The function `govalidator.IsPort`. -/
def govalidator.IsPort (str : String) : Bool :=
  match strconv.Atoi str with
  | some i => decide (0 < i) && decide (i < 65536)
  | none => false

/-- The function `common.ElementInSlice` on a slice of strings. -/
def common.ElementInSlice (s : List String) (e : String) : Bool :=
  s.contains e

/-- The call `viper.Get(key)`: reads the store and leaves it as it is. -/
def viper.Get (key : Key) : StateM Store Value :=
  fun s => (s key, s)

/-! ## config/validate.go -/

/-- ValidateDaemon validates if daemon section is valid. -/
def ValidateDaemon : StateM Store (Option GoError) := do
  let r := cast.ToBoolE (← viper.Get Key.DaemonKey)
  let err := r.2
  return errors.Trace err

/-- ValidateLog validates if log section is valid. -/
def ValidateLog (c : Consts) (env : Env) : StateM Store (Option GoError) := do
  let merr : MultiError := {}
  -- validate log.FileName
  let r := cast.ToStringE (← viper.Get Key.LogFileNameKey)
  let logFileName := r.1
  let err := r.2
  let merr := if err.isSome then multierror.Append merr (errors.Trace err) else merr
  let logFileName := strings.TrimSpace logFileName
  let merr := if logFileName = constant.EmptyString
    then multierror.Append merr (some (message.NewMessage MsgCode.ErrEmptyLogFileName []))
    else merr
  let isAbs := env.IsAbs logFileName
  let r := if !isAbs then env.Abs logFileName else (logFileName, err)
  let logFileName := r.1
  let err := r.2
  let merr := if !isAbs && err.isSome then multierror.Append merr (errors.Trace err) else merr
  let valid := env.IsFilePath logFileName
  let merr := if !valid
    then multierror.Append merr
      (some (message.NewMessage MsgCode.ErrNotValidLogFileName [MsgArg.str logFileName]))
    else merr
  -- validate log.level
  let r := cast.ToStringE (← viper.Get Key.LogLevelKey)
  let logLevel := r.1
  let err := r.2
  let merr := if err.isSome then multierror.Append merr (errors.Trace err) else merr
  let valid := common.ElementInSlice c.ValidLogLevels logLevel
  let merr := if !valid
    then multierror.Append merr
      (some (message.NewMessage MsgCode.ErrNotValidLogLevel [MsgArg.str logLevel]))
    else merr
  -- validate log.format
  let r := cast.ToStringE (← viper.Get Key.LogFormatKey)
  let logFormat := r.1
  let err := r.2
  let merr := if err.isSome then multierror.Append merr (errors.Trace err) else merr
  let valid := common.ElementInSlice c.ValidLogFormats logFormat
  let merr := if !valid
    then multierror.Append merr
      (some (message.NewMessage MsgCode.ErrNotValidLogFormat [MsgArg.str logFormat]))
    else merr
  -- validate log.maxSize
  let r := cast.ToIntE env (← viper.Get Key.LogMaxSizeKey)
  let logMaxSize := r.1
  let err := r.2
  let merr := if err.isSome then multierror.Append merr (errors.Trace err) else merr
  let merr := if logMaxSize < c.MinLogMaxSize ∨ logMaxSize > c.MaxLogMaxSize
    then multierror.Append merr
      (some (message.NewMessage MsgCode.ErrNotValidLogMaxSize
        [MsgArg.int c.MinLogMaxSize, MsgArg.int c.MaxLogMaxSize, MsgArg.int logMaxSize]))
    else merr
  -- validate log.maxDays
  let r := cast.ToIntE env (← viper.Get Key.LogMaxDaysKey)
  let logMaxDays := r.1
  let err := r.2
  let merr := if err.isSome then multierror.Append merr (errors.Trace err) else merr
  let merr := if logMaxDays < c.MinLogMaxDays ∨ logMaxDays > c.MaxLogMaxDays
    then multierror.Append merr
      (some (message.NewMessage MsgCode.ErrNotValidLogMaxDays
        [MsgArg.int c.MinLogMaxDays, MsgArg.int c.MaxLogMaxDays, MsgArg.int logMaxDays]))
    else merr
  -- validate log.maxBackups
  let r := cast.ToIntE env (← viper.Get Key.LogMaxBackupsKey)
  let logMaxBackups := r.1
  let err := r.2
  let merr := if err.isSome then multierror.Append merr (errors.Trace err) else merr
  let merr := if logMaxBackups < c.MinLogMaxDays ∨ logMaxBackups > c.MaxLogMaxDays
    then multierror.Append merr
      (some (message.NewMessage MsgCode.ErrNotValidLogMaxBackups
        [MsgArg.int c.MinLogMaxBackups, MsgArg.int c.MaxLogMaxBackups, MsgArg.int logMaxBackups]))
    else merr
  -- validate log.rotateOnStartup
  let r := cast.ToBoolE (← viper.Get Key.LogRotateOnStartupKey)
  let err := r.2
  let merr := if err.isSome then multierror.Append merr (errors.Trace err) else merr
  -- validate log.stdout
  let r := cast.ToBoolE (← viper.Get Key.LogStdoutKey)
  let err := r.2
  let merr := if err.isSome then multierror.Append merr (errors.Trace err) else merr
  return merr.ErrorOrNil

/-- ValidateServer validates if server section is valid. -/
def ValidateServer (c : Consts) (env : Env) : StateM Store (Option GoError) := do
  let merr : MultiError := {}
  -- validate server.addr
  let r := cast.ToStringE (← viper.Get Key.ServerAddrKey)
  let serverAddr := r.1
  let err := r.2
  let merr := if err.isSome then multierror.Append merr (errors.Trace err) else merr
  let serverAddrList := strings.Split serverAddr constant.ColonString
  let merr :=
    match serverAddrList with
    | [_, port] =>
      if !govalidator.IsPort port
      then multierror.Append merr
        (some (message.NewMessage MsgCode.ErrNotValidServerPort
          [MsgArg.int env.MinPort, MsgArg.int env.MaxPort, MsgArg.str port]))
      else merr
    | _ =>
      multierror.Append merr
        (some (message.NewMessage MsgCode.ErrNotValidServerAddr [MsgArg.str serverAddr]))
  -- validate server.pidFile
  let r := cast.ToStringE (← viper.Get Key.ServerPidFileKey)
  let serverPidFile := r.1
  let err := r.2
  let merr := if err.isSome then multierror.Append merr (errors.Trace err) else merr
  let isAbs := env.IsAbs serverPidFile
  let r := if !isAbs then env.Abs serverPidFile else (serverPidFile, err)
  let serverPidFile := r.1
  let err := r.2
  let merr := if !isAbs && err.isSome then multierror.Append merr (errors.Trace err) else merr
  let ok := env.IsFilePath serverPidFile
  let merr := if !ok
    then multierror.Append merr
      (some (message.NewMessage MsgCode.ErrNotValidPidFile [MsgArg.str serverPidFile]))
    else merr
  -- validate server.readTimeout
  let r := cast.ToIntE env (← viper.Get Key.ServerReadTimeoutKey)
  let serverReadTimeout := r.1
  let err := r.2
  let merr := if err.isSome then multierror.Append merr (errors.Trace err) else merr
  let merr :=
    if serverReadTimeout < c.MinServerReadTimeout ∨ serverReadTimeout > c.MaxServerReadTimeout
    then multierror.Append merr
      (some (message.NewMessage MsgCode.ErrNotValidServerReadTimeout
        [MsgArg.int c.MinServerReadTimeout, MsgArg.int c.MaxServerWriteTimeout,
          MsgArg.int serverReadTimeout]))
    else merr
  -- validate server.writeTimeout
  let r := cast.ToIntE env (← viper.Get Key.ServerWriteTimeoutKey)
  let serverWriteTimeout := r.1
  let err := r.2
  let merr := if err.isSome then multierror.Append merr (errors.Trace err) else merr
  let merr :=
    if serverWriteTimeout < c.MinServerWriteTimeout ∨ serverWriteTimeout > c.MaxServerWriteTimeout
    then multierror.Append merr
      (some (message.NewMessage MsgCode.ErrNotValidServerWriteTimeout
        [MsgArg.int c.MinServerWriteTimeout, MsgArg.int c.MaxServerWriteTimeout,
          MsgArg.int serverWriteTimeout]))
    else merr
  return merr.ErrorOrNil

/-- ValidateConfig validates if the configuration is valid. -/
def ValidateConfig (c : Consts) (env : Env) : StateM Store (Option GoError) := do
  let merr : MultiError := {}
  -- validate daemon section
  let err ← ValidateDaemon
  let merr := if err.isSome then multierror.Append merr err else merr
  -- validate log section
  let err ← ValidateLog c env
  let merr := if err.isSome then multierror.Append merr err else merr
  -- validate server section
  let err ← ValidateServer c env
  let merr := if err.isSome then multierror.Append merr err else merr
  return errors.Trace merr.ErrorOrNil

/-- The individual errors an error value stands for: the `Errors` slice of a
multierror (also under a trace annotation), nothing for nil, the error itself
otherwise. -/
def errorList : Option GoError → List GoError
  | none => []
  | some (GoError.multi es) => es
  | some (GoError.traced (GoError.multi es)) => es
  | some e => [e]


/-- Whether a list of errors holds a message with the given code. -/
def reportsCode (code : MsgCode) (es : List GoError) : Bool :=
  es.any fun e =>
    match e with
    | GoError.message c _ => c == code
    | _ => false

/-- The rule for `server.pidFile`: it converts to a string that is, or resolves to, an
absolute path and passes the file-path syntax check. -/
def serverPidFileValid (env : Env) (s : Store) : Bool :=
  let r := cast.ToStringE (s Key.ServerPidFileKey)
  r.2.isNone &&
    (if env.IsAbs r.1 then env.IsFilePath r.1
      else (env.Abs r.1).2.isNone && env.IsFilePath (env.Abs r.1).1)

/-- The rule for an integer field: it converts to an integer within the bound. -/
def intWithin (env : Env) (v : Value) (lo hi : Int) : Bool :=
  (cast.ToIntE env v).2.isNone && decide (lo ≤ (cast.ToIntE env v).1)
    && decide ((cast.ToIntE env v).1 ≤ hi)

/-! ## cmd/root.go and cmd/start.go -/

/-- Functions of package cmd whose entry is recorded in the trace. -/
inductive Func where
  | initDefaultConfig
  | ReadConfigFile
  | OverrideConfigByCLI
  deriving DecidableEq, Repr

/-- Calls that act on the outside world, recorded in the order they happen. `enter`
marks the entry of one of the configuration steps of `initConfig`. -/
inductive Effect where
  | enter (f : Func)
  | SetDefaultConfig (baseDir : String)
  | SetConfigFile (file : String)
  | ReadInConfig
  | InitFileLogger (fileName level format : String) (maxSize maxDays maxBackups : Int)
  | SetDisableDoubleQuotes
  | SetDisableEscape
  | AddWriteSyncer
  | Rotate
  | Println (e : GoError)
  | Errorf (e : GoError)
  | Info (e : GoError)
  | Start (name : String) (args : List String)
  | Sleep
  | SavePid (pid : Int) (pidFile : String) (mode : Nat)
  | HandleSignalsWithPidFile (pidFile : String)

/-- State of the running process: the configuration store, the package variable
`baseDir`, `os.Args` split into `os.Args[0]` and `os.Args[1:]`, the pid recorded in
each pid file on disk, and the trace of effects so far. -/
structure Proc where
  store : Store
  baseDir : String
  Args0 : String
  Args : List String
  pidFiles : String → Option Int
  trace : List Effect

/-- Inputs and external behaviour of package cmd: the `--config` flag value, constants
of the utility library, `config.SetDefaultConfig`, `viper.ReadInConfig` (given the
config file), `OverrideConfigByCLI`, the logger, and the process helpers of the
utility library (`PathExists`, `IsRunningWithPidFile`, `SavePid`), `exec.Cmd.Start`
and `os.Getpid`. -/
structure Sys where
  cfgFile : String
  DefaultRandomString : String
  DefaultFileMode : Nat
  SetDefaultConfig : String → Store → Store
  ReadInConfig : String → Store → Store × Option GoError
  OverrideConfigByCLI : Store → Store × Option GoError
  InitFileLogger : String → String → String → Int → Int → Int → Option GoError
  Rotate : Option GoError
  PathExists : String → Bool × Option GoError
  IsRunningWithPidFile : String → Bool × Option GoError
  Start : String → List String → Option GoError
  Getpid : Int
  SavePid : Int → String → Nat → Option GoError

/-- Appends an effect to the trace. -/
def emit (e : Effect) : StateM Proc Unit :=
  fun p => ((), { p with trace := p.trace ++ [e] })

/-- Runs a computation over the configuration store inside the process state. -/
def onStore {α : Type} (m : StateM Store α) : StateM Proc α :=
  fun p => ((m p.store).1, { p with store := (m p.store).2 })

/-- The call `viper.GetString(key)`. -/
def viper.GetString (key : Key) : StateM Proc String :=
  fun p => ((cast.ToStringE (p.store key)).1, p)

/-- The call `viper.GetInt(key)`. -/
def viper.GetInt (env : Env) (key : Key) : StateM Proc Int :=
  fun p => ((cast.ToIntE env (p.store key)).1, p)

/-- The call `viper.GetBool(key)`. -/
def viper.GetBool (key : Key) : StateM Proc Bool :=
  fun p => ((cast.ToBoolE (p.store key)).1, p)

/-- The call `config.SetDefaultConfig(baseDir)`. -/
def config.SetDefaultConfig (sys : Sys) (baseDir : String) : StateM Proc Unit :=
  fun p => ((), { p with store := sys.SetDefaultConfig baseDir p.store,
                         trace := p.trace ++ [Effect.SetDefaultConfig baseDir] })

/-- The calls `viper.SetConfigFile(cfgFile)` and `viper.SetConfigType`. -/
def viper.SetConfigFile (file : String) : StateM Proc Unit :=
  emit (Effect.SetConfigFile file)

/-- The call `viper.ReadInConfig()`. -/
def viper.ReadInConfig (sys : Sys) : StateM Proc (Option GoError) :=
  fun p => ((sys.ReadInConfig sys.cfgFile p.store).2,
    { p with store := (sys.ReadInConfig sys.cfgFile p.store).1,
             trace := p.trace ++ [Effect.ReadInConfig] })

/-- OverrideConfigByCLI overrides the configuration with the command line arguments. -/
def OverrideConfigByCLI (sys : Sys) : StateM Proc (Option GoError) :=
  fun p => ((sys.OverrideConfigByCLI p.store).2,
    { p with store := (sys.OverrideConfigByCLI p.store).1,
             trace := p.trace ++ [Effect.enter Func.OverrideConfigByCLI] })

/-- The call `log.InitFileLogger`. -/
def log.InitFileLogger (sys : Sys) (fileName level format : String)
    (maxSize maxDays maxBackups : Int) : StateM Proc (Option GoError) :=
  fun p => (sys.InitFileLogger fileName level format maxSize maxDays maxBackups,
    { p with trace := p.trace
        ++ [Effect.InitFileLogger fileName level format maxSize maxDays maxBackups] })

/-- The call `log.Rotate()`. -/
def log.Rotate (sys : Sys) : StateM Proc (Option GoError) :=
  fun p => (sys.Rotate, { p with trace := p.trace ++ [Effect.Rotate] })

/-- The call `linux.SavePid`: on success the pid file holds the pid. -/
def linux.SavePid (sys : Sys) (pid : Int) (pidFile : String) (mode : Nat) :
    StateM Proc (Option GoError) :=
  fun p =>
    match sys.SavePid pid pidFile mode with
    | none => (none, { p with pidFiles := Function.update p.pidFiles pidFile (some pid),
                              trace := p.trace ++ [Effect.SavePid pid pidFile mode] })
    | some err => (some err, { p with trace := p.trace ++ [Effect.SavePid pid pidFile mode] })

/-- initDefaultConfig initiate default configuration. -/
def initDefaultConfig (c : Consts) (env : Env) (sys : Sys) : StateM Proc (Option GoError) := do
  emit (Effect.enter Func.initDefaultConfig)
  -- get base dir
  let r := env.Abs c.DefaultBaseDir
  modify fun p => { p with baseDir := r.1 }
  match r.2 with
  | some err =>
    return some (message.NewMessage MsgCode.ErrBaseDir
      [MsgArg.err (GoError.traced err), MsgArg.str c.DefaultCommandName])
  | none =>
    -- set default config value
    config.SetDefaultConfig sys r.1
    let err ← onStore (ValidateConfig c env)
    match err with
    | some e => return some e
    | none => return none

/-- ReadConfigFile read configuration from config file, it will override the init
configuration. -/
def ReadConfigFile (c : Consts) (env : Env) (sys : Sys) : StateM Proc (Option GoError) := do
  emit (Effect.enter Func.ReadConfigFile)
  if sys.cfgFile ≠ constant.EmptyString ∧ sys.cfgFile ≠ sys.DefaultRandomString then
    viper.SetConfigFile sys.cfgFile
    let err ← viper.ReadInConfig sys
    match err with
    | some e => return some (GoError.traced e)
    | none =>
      let err ← onStore (ValidateConfig c env)
      match err with
      | some e => return some (message.NewMessage MsgCode.ErrValidateConfig [MsgArg.err e])
      | none => return none
  else
    return none

/-- The logger initialisation at the end of `initConfig` (from the comment
`init log` on). -/
def initLog (env : Env) (sys : Sys) : StateM Proc (Option GoError) := do
  let fileName ← viper.GetString Key.LogFileNameKey
  let level ← viper.GetString Key.LogLevelKey
  let format ← viper.GetString Key.LogFormatKey
  let maxSize ← viper.GetInt env Key.LogMaxSizeKey
  let maxDays ← viper.GetInt env Key.LogMaxDaysKey
  let maxBackups ← viper.GetInt env Key.LogMaxBackupsKey
  let isAbs := env.IsAbs fileName
  let r := if !isAbs then env.Abs fileName else (fileName, none)
  match r.2 with
  | some err =>
    return some (message.NewMessage MsgCode.ErrAbsoluteLogFilePath
      [MsgArg.err (GoError.traced err), MsgArg.str fileName])
  | none =>
    let fileNameAbs := r.1
    let err ← log.InitFileLogger sys fileNameAbs level format maxSize maxDays maxBackups
    match err with
    | some e => return some (message.NewMessage MsgCode.ErrInitLogger [MsgArg.err e])
    | none =>
      emit Effect.SetDisableDoubleQuotes
      emit Effect.SetDisableEscape
      if ← viper.GetBool Key.LogStdoutKey then
        emit Effect.AddWriteSyncer
      if ← viper.GetBool Key.LogRotateOnStartupKey then
        let err ← log.Rotate sys
        match err with
        | some e => return some (message.NewMessage MsgCode.ErrRotateLogFile [MsgArg.err e])
        | none => return none
      else
        return none

/-- initConfig reads in config file and ENV variables if set. -/
def initConfig (c : Consts) (env : Env) (sys : Sys) : StateM Proc (Option GoError) := do
  -- init default config
  let err ← initDefaultConfig c env sys
  match err with
  | some e => return some (message.NewMessage MsgCode.ErrInitDefaultConfig [MsgArg.errText e])
  | none =>
    -- read config with config file
    let err ← ReadConfigFile c env sys
    match err with
    | some e => return some (message.NewMessage MsgCode.ErrInitDefaultConfig [MsgArg.err e])
    | none =>
      -- override config with command line arguments
      let err ← OverrideConfigByCLI sys
      match err with
      | some e =>
        return some (message.NewMessage MsgCode.ErrOverrideCommandLineArgs [MsgArg.err e])
      | none =>
        -- init log
        initLog env sys

/-- The loop of the daemon branch of the start command over `os.Args[1:]`: `args`
shares its elements with the slice being ranged over, and position `i` is overwritten
after it has been read. -/
def setDaemonFalse (c : Consts) (osArgsTail : List String) : List String :=
  (List.range osArgsTail.length).foldl
    (fun args i =>
      match args[i]? with
      | some arg =>
        if c.TrimSpaceOfArg arg = c.DaemonArgTrue then args.set i c.DaemonArgFalse else args
      | none => args)
    osArgsTail

/-- The `Run` function of `startCmd`. The result is the exit code handed to `os.Exit`,
or none when the command has reached `linux.HandleSignalsWithPidFile`, where it waits
for signals. -/
def startCmd.Run (c : Consts) (env : Env) (sys : Sys) : StateM Proc (Option Int) := do
  -- init config
  let err ← initConfig c env sys
  match err with
  | some e =>
    emit (Effect.Println (message.NewMessage MsgCode.ErrInitConfig [MsgArg.err e]))
    return some constant.DefaultAbnormalExitCode
  | none =>
    -- check pid file
    let serverPidFile ← viper.GetString Key.ServerPidFileKey
    let r := sys.PathExists serverPidFile
    let pidFileExists := r.1
    match r.2 with
    | some e =>
      emit (Effect.Errorf (message.NewMessage MsgCode.ErrCheckServerPid [MsgArg.err e]))
      return some constant.DefaultAbnormalExitCode
    | none =>
      let refusal : Option GoError :=
        if pidFileExists then
          let running := sys.IsRunningWithPidFile serverPidFile
          match running.2 with
          | some e =>
            some (message.NewMessage MsgCode.ErrCheckServerRunningStatus [MsgArg.err e])
          | none =>
            if running.1
            then some (message.NewMessage MsgCode.ErrServerIsRunning [MsgArg.str serverPidFile])
            else none
        else none
      match refusal with
      | some m =>
        emit (Effect.Errorf m)
        return some constant.DefaultAbnormalExitCode
      | none =>
        -- check if runs in daemon mode
        let daemon ← viper.GetBool Key.DaemonKey
        if daemon then
          -- set daemon to false
          modify fun p => { p with Args := setDaemonFalse c p.Args }
          let p ← get
          let args := p.Args
          -- start server with new process
          emit (Effect.Start p.Args0 args)
          match sys.Start p.Args0 args with
          | some e =>
            emit (Effect.Errorf (message.NewMessage MsgCode.ErrStartAsForeground
              [MsgArg.err (GoError.traced e)]))
            return some constant.DefaultAbnormalExitCode
          | none =>
            emit Effect.Sleep
            return some constant.DefaultNormalExitCode
        else
          -- get pid
          let serverPid := sys.Getpid
          -- save pid
          let err ← linux.SavePid sys serverPid serverPidFile sys.DefaultFileMode
          match err with
          | some e =>
            emit (Effect.Errorf (message.NewMessage MsgCode.ErrSavePidToFile [MsgArg.err e]))
            return some constant.DefaultAbnormalExitCode
          | none =>
            emit (Effect.Info (message.NewMessage MsgCode.InfoServerStart
              [MsgArg.int serverPid, MsgArg.str serverPidFile]))
            -- handle signal
            emit (Effect.HandleSignalsWithPidFile serverPidFile)
            return none

/-- The configuration steps entered, in order, among the effects of a trace. -/
def stepsOf : List Effect → List Func
  | [] => []
  | Effect.enter f :: t => f :: stepsOf t
  | _ :: t => stepsOf t

/-- Whether the logger has been initialised in a trace. -/
def loggerInitialised (t : List Effect) : Bool :=
  t.any fun e =>
    match e with
    | Effect.InitFileLogger _ _ _ _ _ _ => true
    | _ => false

/-- Whether a trace holds a pid-file write, a relaunch, or a signal wait. -/
def startsServer (t : List Effect) : Bool :=
  t.any fun e =>
    match e with
    | Effect.SavePid _ _ _ => true
    | Effect.Start _ _ => true
    | Effect.HandleSignalsWithPidFile _ => true
    | _ => false

/-- The state and result after the first configuration step of `initConfig`. -/
def afterDefaults (c : Consts) (env : Env) (sys : Sys) (p : Proc) : Option GoError × Proc :=
  initDefaultConfig c env sys p

/-- The state and result after the second configuration step, run after the first. -/
def afterFile (c : Consts) (env : Env) (sys : Sys) (p : Proc) : Option GoError × Proc :=
  ReadConfigFile c env sys (afterDefaults c env sys p).2

/-- The state and result after the third configuration step, run after the second. -/
def afterCLI (c : Consts) (env : Env) (sys : Sys) (p : Proc) : Option GoError × Proc :=
  OverrideConfigByCLI sys (afterFile c env sys p).2

/-- The effects recorded between state `p` and a later state `q`. -/
def traceSince (p q : Proc) : List Effect :=
  q.trace.drop p.trace.length

/-- State `q` continues state `p`: the trace only grew, and neither the pid files nor
`os.Args` changed. -/
def Proc.Extends (p q : Proc) : Prop :=
  p.trace <+: q.trace ∧ q.pidFiles = p.pidFiles ∧ q.Args0 = p.Args0 ∧ q.Args = p.Args

/-- A computation is quiet when, from every state, it only appends effects that are
neither a configuration step nor a pid-file write, relaunch or signal wait, and it
leaves the store, the pid files and `os.Args` as they are. -/
structure Quiet {α : Type} (m : StateM Proc α) : Prop where
  run : ∀ p : Proc, p.Extends (m p).2 ∧ stepsOf (traceSince p (m p).2) = []
    ∧ startsServer (traceSince p (m p).2) = false ∧ (m p).2.store = p.store

/-- The pid file path the start command reads from the store once `initConfig` has
run. -/
def configuredPidFile (c : Consts) (env : Env) (sys : Sys) (p : Proc) : String :=
  (cast.ToStringE ((initConfig c env sys p).2.store Key.ServerPidFileKey)).1

/-- The daemon flag the start command reads from the store once `initConfig` has run. -/
def configuredDaemon (c : Consts) (env : Env) (sys : Sys) (p : Proc) : Bool :=
  (cast.ToBoolE ((initConfig c env sys p).2.store Key.DaemonKey)).1

/-- Whether a trace holds a pid-file write. -/
def savesPid (t : List Effect) : Bool :=
  t.any fun e =>
    match e with
    | Effect.SavePid _ _ _ => true
    | _ => false

/-- Whether a trace holds a signal wait. -/
def waitsForSignals (t : List Effect) : Bool :=
  t.any fun e =>
    match e with
    | Effect.HandleSignalsWithPidFile _ => true
    | _ => false

/-- The argument list of the first child process started in a trace. -/
def childArgs : List Effect → Option (List String)
  | [] => none
  | Effect.Start _ args :: _ => some args
  | _ :: t => childArgs t

/-! ## Sample values -/

/-- Sample constants of package config, with a different bound for every field. -/
def sampleConsts : Consts where
  ValidLogLevels := ["debug", "info", "warn", "error", "fatal"]
  ValidLogFormats := ["text", "json"]
  MinLogMaxSize := 1
  MaxLogMaxSize := 1024
  MinLogMaxDays := 1
  MaxLogMaxDays := 30
  MinLogMaxBackups := 1
  MaxLogMaxBackups := 10
  MinServerReadTimeout := 0
  MaxServerReadTimeout := 60
  MinServerWriteTimeout := 1
  MaxServerWriteTimeout := 120
  DefaultBaseDir := "."
  DefaultCommandName := "go-template-cli"
  DaemonArgTrue := "--daemon=true"
  DaemonArgFalse := "--daemon=false"
  TrimSpaceOfArg := strings.TrimSpace

/-- Sample environment: absolute paths start with a slash, relative paths resolve
below a fixed working directory, and integers are parsed in base ten. -/
def sampleEnv : Env where
  IsAbs := fun p => p.toList.head? == some '/'
  Abs := fun p => ("/srv/app/" ++ p, none)
  IsFilePath := fun p => p.toList.head? == some '/'
  ParseInt := strconv.Atoi
  MinPort := 1
  MaxPort := 65535

/-- Sample store in which every field satisfies its rule under the sample values. -/
def sampleStore : Store
  | Key.DaemonKey => Value.bool false
  | Key.LogFileNameKey => Value.str "/var/log/app.log"
  | Key.LogLevelKey => Value.str "info"
  | Key.LogFormatKey => Value.str "text"
  | Key.LogMaxSizeKey => Value.int 100
  | Key.LogMaxDaysKey => Value.int 7
  | Key.LogMaxBackupsKey => Value.int 5
  | Key.LogRotateOnStartupKey => Value.bool false
  | Key.LogStdoutKey => Value.bool false
  | Key.ServerAddrKey => Value.str "0.0.0.0:8080"
  | Key.ServerPidFileKey => Value.str "/var/run/app.pid"
  | Key.ServerReadTimeoutKey => Value.int 5
  | Key.ServerWriteTimeoutKey => Value.int 10

/-- The store `s` with the value of one key replaced. -/
def Store.set (s : Store) (key : Key) (v : Value) : Store :=
  fun k => if k = key then v else s k

/-- Sample inputs of package cmd. The defaults are the sample store; a config file,
when `fileDaemon` is set, is given and sets `daemon: true`; the command line sets the
daemon key to true when `cliDaemon` is set; the pid file `/var/run/app.pid` exists and
`running` tells whether its pid is alive. -/
def sampleSys (fileDaemon cliDaemon running : Bool) : Sys where
  cfgFile := if fileDaemon then "app.yaml" else ""
  DefaultRandomString := "default-random-string"
  DefaultFileMode := 420
  SetDefaultConfig := fun _ _ => sampleStore
  ReadInConfig := fun _ s => (s.set Key.DaemonKey (Value.bool true), none)
  OverrideConfigByCLI := fun s =>
    (if cliDaemon then s.set Key.DaemonKey (Value.bool true) else s, none)
  InitFileLogger := fun _ _ _ _ _ _ => none
  Rotate := none
  PathExists := fun f => (f == "/var/run/app.pid", none)
  IsRunningWithPidFile := fun _ => (running, none)
  Start := fun _ _ => none
  Getpid := 4242
  SavePid := fun _ _ _ => none

/-- Sample process state at the entry of the start command: an empty store, the given
`os.Args[1:]`, and a pid file left by process 1111. -/
def sampleProc (args : List String) : Proc where
  store := fun _ => Value.nil
  baseDir := ""
  Args0 := "go-template-cli"
  Args := args
  pidFiles := fun f => if f = "/var/run/app.pid" then some 1111 else none
  trace := []

/-! ## Helper lemmas -/

theorem ValidateDaemon_run (s : Store) :
    ValidateDaemon s = (errors.Trace (cast.ToBoolE (s Key.DaemonKey)).2, s) := rfl

theorem ValidateLog_shape (c : Consts) (env : Env) (s : Store) :
    ∃ m : MultiError, ValidateLog c env s = (m.ErrorOrNil, s) := ⟨_, rfl⟩

theorem ValidateServer_shape (c : Consts) (env : Env) (s : Store) :
    ∃ m : MultiError, ValidateServer c env s = (m.ErrorOrNil, s) := ⟨_, rfl⟩

theorem ite_Append_Trace (p : Prop) [Decidable p] (m : MultiError) (err : Option GoError) :
    (if p then multierror.Append m (errors.Trace err) else m)
      = { Errors := m.Errors ++ if p then (errors.Trace err).toList else [] } := by
  cases err <;> by_cases h : p <;> simp [h, multierror.Append, errors.Trace]

theorem ite_Append_message (p : Prop) [Decidable p] (m : MultiError) (code : MsgCode)
    (args : List MsgArg) :
    (if p then multierror.Append m (some (message.NewMessage code args)) else m)
      = { Errors := m.Errors ++ if p then [GoError.message code args] else [] } := by
  by_cases h : p <;> simp [h, multierror.Append, message.NewMessage]

theorem Append_message (m : MultiError) (code : MsgCode) (args : List MsgArg) :
    multierror.Append m (some (message.NewMessage code args))
      = { Errors := m.Errors ++ [GoError.message code args] } := rfl

theorem errorList_ErrorOrNil (m : MultiError) : errorList m.ErrorOrNil = m.Errors := by
  unfold MultiError.ErrorOrNil
  split
  · rename_i h
    simp [errorList, List.length_eq_zero.mp h]
  · simp [errorList]

theorem errorList_Trace_ErrorOrNil (m : MultiError) :
    errorList (errors.Trace m.ErrorOrNil) = m.Errors := by
  unfold MultiError.ErrorOrNil
  split
  · rename_i h
    simp [errorList, errors.Trace, List.length_eq_zero.mp h]
  · simp [errorList, errors.Trace]

theorem ErrorOrNil_eq_none (m : MultiError) : m.ErrorOrNil = none ↔ m.Errors = [] := by
  unfold MultiError.ErrorOrNil
  split
  · rename_i h
    simp [List.length_eq_zero.mp h]
  · rename_i h
    simpa using h

theorem Append_section (acc m : MultiError) :
    (if m.ErrorOrNil.isSome then multierror.Append acc m.ErrorOrNil else acc).Errors
      = acc.Errors ++ m.Errors := by
  unfold MultiError.ErrorOrNil
  split
  · rename_i h
    simp [List.length_eq_zero.mp h]
  · simp [multierror.Append]

theorem cast_ToBoolE_err (v : Value) :
    (cast.ToBoolE v).2 = none ∨ (cast.ToBoolE v).2 = some (GoError.cast v CastTarget.toBool) := by
  cases v <;> simp [cast.ToBoolE]
  rename_i s
  cases strconv.ParseBool s <;> simp

theorem Append_daemon (acc : MultiError) (v : Value) :
    (if (errors.Trace (cast.ToBoolE v).2).isSome
        then multierror.Append acc (errors.Trace (cast.ToBoolE v).2) else acc).Errors
      = acc.Errors ++ errorList (errors.Trace (cast.ToBoolE v).2) := by
  rcases cast_ToBoolE_err v with h | h <;> simp [h, errors.Trace, multierror.Append, errorList]

theorem errorList_daemon_nil (v : Value) :
    errorList (errors.Trace (cast.ToBoolE v).2) = [] ↔ errors.Trace (cast.ToBoolE v).2 = none := by
  rcases cast_ToBoolE_err v with h | h <;> simp [h, errors.Trace, errorList]

theorem ValidateConfig_run (c : Consts) (env : Env) (s : Store) :
    ValidateConfig c env s =
      (errors.Trace (MultiError.ErrorOrNil
        (if (ValidateServer c env s).1.isSome then
          multierror.Append
            (if (ValidateLog c env s).1.isSome then
              multierror.Append
                (if (ValidateDaemon s).1.isSome then multierror.Append {} (ValidateDaemon s).1
                  else {})
                (ValidateLog c env s).1
              else
                (if (ValidateDaemon s).1.isSome then multierror.Append {} (ValidateDaemon s).1
                  else {}))
            (ValidateServer c env s).1
          else
            (if (ValidateLog c env s).1.isSome then
              multierror.Append
                (if (ValidateDaemon s).1.isSome then multierror.Append {} (ValidateDaemon s).1
                  else {})
                (ValidateLog c env s).1
              else
                (if (ValidateDaemon s).1.isSome then multierror.Append {} (ValidateDaemon s).1
                  else {})))), s) := rfl

theorem ValidateConfig_errors (c : Consts) (env : Env) (s : Store) :
    errorList (ValidateConfig c env s).1
        = errorList (ValidateDaemon s).1 ++ errorList (ValidateLog c env s).1
            ++ errorList (ValidateServer c env s).1 := by
  obtain ⟨ml, hl⟩ := ValidateLog_shape c env s
  obtain ⟨ms, hs⟩ := ValidateServer_shape c env s
  rw [ValidateConfig_run, hl, hs, ValidateDaemon_run]
  simp only [errorList_Trace_ErrorOrNil, Append_section, Append_daemon, errorList_ErrorOrNil,
    List.nil_append]

theorem reportsCode_append (code : MsgCode) (l₁ l₂ : List GoError) :
    reportsCode code (l₁ ++ l₂) = (reportsCode code l₁ || reportsCode code l₂) := by
  simp [reportsCode]

theorem reportsCode_nil (code : MsgCode) : reportsCode code [] = false := rfl

theorem reportsCode_Trace (code : MsgCode) (p : Prop) [Decidable p] (err : Option GoError) :
    reportsCode code (if p then (errors.Trace err).toList else []) = false := by
  cases err <;> by_cases h : p <;> simp [h, reportsCode, errors.Trace]

theorem reportsCode_message (code c : MsgCode) (p : Prop) [Decidable p] (args : List MsgArg) :
    reportsCode code (if p then [GoError.message c args] else [])
      = (decide p && decide (c = code)) := by
  by_cases h : p <;> by_cases hc : c = code <;> simp [h, hc, reportsCode]

theorem ToStringE_str (a : String) : cast.ToStringE (Value.str a) = (a, none) := rfl

theorem ToIntE_int (env : Env) (n : Int) : cast.ToIntE env (Value.int n) = (n, none) := rfl

theorem ToBoolE_bool (b : Bool) : cast.ToBoolE (Value.bool b) = (b, none) := rfl

/-- Claim C1: for every store, `ValidateConfig` runs the three section validators on it
whatever the earlier ones returned, and its aggregated error list is the concatenation
of the daemon, log and server errors in that order; the result is nil exactly when
all three sections return nil; and a store with a log level outside the valid levels
and a server address that does not split into two parts yields an aggregate holding
both messages. -/
theorem ValidateConfig_aggregates_all_sections (c : Consts) (env : Env) (s : Store) :
    errorList (ValidateConfig c env s).1
        = errorList (ValidateDaemon s).1 ++ errorList (ValidateLog c env s).1
            ++ errorList (ValidateServer c env s).1
      ∧ ((ValidateConfig c env s).1 = none ↔
          (ValidateDaemon s).1 = none ∧ (ValidateLog c env s).1 = none
            ∧ (ValidateServer c env s).1 = none)
      ∧ (∀ level addr : String, s Key.LogLevelKey = Value.str level →
          level ∉ c.ValidLogLevels → s Key.ServerAddrKey = Value.str addr →
          (strings.Split addr constant.ColonString).length ≠ 2 →
          GoError.message MsgCode.ErrNotValidLogLevel [MsgArg.str level]
              ∈ errorList (ValidateConfig c env s).1
            ∧ GoError.message MsgCode.ErrNotValidServerAddr [MsgArg.str addr]
              ∈ errorList (ValidateConfig c env s).1) := by
  refine ⟨ValidateConfig_errors c env s, ?_, ?_⟩
  · obtain ⟨ml, hl⟩ := ValidateLog_shape c env s
    obtain ⟨ms, hs⟩ := ValidateServer_shape c env s
    rw [ValidateConfig_run, hl, hs, ValidateDaemon_run]
    simp only [errors.Trace, Option.map_eq_none', ErrorOrNil_eq_none, Append_section]
    have hd := Append_daemon {} (s Key.DaemonKey)
    simp only [errors.Trace] at hd
    rw [hd]
    have hn := errorList_daemon_nil (s Key.DaemonKey)
    simp only [errors.Trace, Option.map_eq_none'] at hn
    simp [hn, and_assoc]
  · intro level addr hlevel hbad haddr hlen
    rw [ValidateConfig_errors]
    constructor
    · apply List.mem_append_left
      apply List.mem_append_right
      simp only [ValidateLog, bind, StateT.bind, viper.Get, pure, StateT.pure, ite_Append_Trace,
        ite_Append_message, errorList_ErrorOrNil, hlevel, ToStringE_str]
      simp [common.ElementInSlice, hbad]
    · apply List.mem_append_right
      rcases hsp : strings.Split addr constant.ColonString with _ | ⟨a, _ | ⟨b, _ | ⟨d, l⟩⟩⟩
      all_goals
        first
        | (exfalso; apply hlen; rw [hsp]; rfl)
        | (simp only [ValidateServer, bind, StateT.bind, viper.Get, pure, StateT.pure, haddr,
            ToStringE_str, hsp, ite_Append_Trace, ite_Append_message]
           simp only [Append_message, errorList_ErrorOrNil]
           simp)

theorem ValidateLog_none_iff (c : Consts) (env : Env) (s : Store) :
    (ValidateLog c env s).1 = none ↔ errorList (ValidateLog c env s).1 = [] := by
  obtain ⟨m, hm⟩ := ValidateLog_shape c env s
  rw [hm]
  simp only [errorList_ErrorOrNil, ErrorOrNil_eq_none]

theorem ValidateServer_none_iff (c : Consts) (env : Env) (s : Store) :
    (ValidateServer c env s).1 = none ↔ errorList (ValidateServer c env s).1 = [] := by
  obtain ⟨m, hm⟩ := ValidateServer_shape c env s
  rw [hm]
  simp only [errorList_ErrorOrNil, ErrorOrNil_eq_none]

theorem reportsCode_eq_true_iff (code : MsgCode) (es : List GoError) :
    reportsCode code es = true ↔ ∃ args, GoError.message code args ∈ es := by
  unfold reportsCode
  rw [List.any_eq_true]
  constructor
  · rintro ⟨e, he, h⟩
    cases e <;> simp at h
    subst h
    exact ⟨_, he⟩
  · rintro ⟨args, h⟩
    exact ⟨_, h, by simp⟩

theorem eq_nil_iff_of_all_code (code : MsgCode) (es : List GoError)
    (h : ∀ e ∈ es, ∃ args, e = GoError.message code args) :
    es = [] ↔ reportsCode code es = false := by
  constructor
  · intro hnil
    subst hnil
    rfl
  · intro hr
    cases es with
    | nil => rfl
    | cons e t =>
      obtain ⟨args, rfl⟩ := h e (List.mem_cons_self _ _)
      simp [reportsCode] at hr

theorem ValidateLog_reports_maxSize (c : Consts) (env : Env) (s : Store) (n : Int)
    (h : s Key.LogMaxSizeKey = Value.int n) :
    reportsCode MsgCode.ErrNotValidLogMaxSize (errorList (ValidateLog c env s).1)
      = decide (n < c.MinLogMaxSize ∨ n > c.MaxLogMaxSize) := by
  simp only [ValidateLog, bind, StateT.bind, viper.Get, pure, StateT.pure, ite_Append_Trace,
    ite_Append_message, errorList_ErrorOrNil, h, ToIntE_int]
  simp only [reportsCode_append, reportsCode_Trace, reportsCode_message, reportsCode_nil]
  simp

theorem ValidateLog_reports_maxBackups (c : Consts) (env : Env) (s : Store) (n : Int)
    (h : s Key.LogMaxBackupsKey = Value.int n) :
    reportsCode MsgCode.ErrNotValidLogMaxBackups (errorList (ValidateLog c env s).1)
      = decide (n < c.MinLogMaxDays ∨ n > c.MaxLogMaxDays) := by
  simp only [ValidateLog, bind, StateT.bind, viper.Get, pure, StateT.pure, ite_Append_Trace,
    ite_Append_message, errorList_ErrorOrNil, h, ToIntE_int]
  simp only [reportsCode_append, reportsCode_Trace, reportsCode_message, reportsCode_nil]
  simp

/-- Claim C2: when `log.maxSize` holds the integer `n`, `ValidateLog` reports
`ErrNotValidLogMaxSize` exactly when `n < MinLogMaxSize` or `n > MaxLogMaxSize`, and the
message cites the two bounds and `n`; when nothing else in the log section is
reported, the section is accepted exactly for `n` within the bound; `n` at either bound
is accepted (for a bound with `MinLogMaxSize ≤ MaxLogMaxSize`), one below the minimum
and one above the maximum are rejected. -/
theorem ValidateLog_maxSize_bound (c : Consts) (env : Env) (s : Store) (n : Int)
    (h : s Key.LogMaxSizeKey = Value.int n) :
    (reportsCode MsgCode.ErrNotValidLogMaxSize (errorList (ValidateLog c env s).1) = true
        ↔ n < c.MinLogMaxSize ∨ n > c.MaxLogMaxSize)
      ∧ (n < c.MinLogMaxSize ∨ n > c.MaxLogMaxSize →
          GoError.message MsgCode.ErrNotValidLogMaxSize
              [MsgArg.int c.MinLogMaxSize, MsgArg.int c.MaxLogMaxSize, MsgArg.int n]
            ∈ errorList (ValidateLog c env s).1)
      ∧ ((∀ e ∈ errorList (ValidateLog c env s).1,
            ∃ args, e = GoError.message MsgCode.ErrNotValidLogMaxSize args) →
          ((ValidateLog c env s).1 = none ↔ c.MinLogMaxSize ≤ n ∧ n ≤ c.MaxLogMaxSize))
      ∧ (c.MinLogMaxSize ≤ c.MaxLogMaxSize → n = c.MinLogMaxSize ∨ n = c.MaxLogMaxSize →
          reportsCode MsgCode.ErrNotValidLogMaxSize (errorList (ValidateLog c env s).1) = false)
      ∧ (n = c.MinLogMaxSize - 1 ∨ n = c.MaxLogMaxSize + 1 →
          reportsCode MsgCode.ErrNotValidLogMaxSize (errorList (ValidateLog c env s).1) = true) := by
  have hr := ValidateLog_reports_maxSize c env s n h
  refine ⟨?_, ?_, ?_, ?_, ?_⟩
  · rw [hr]; simp
  · intro hout
    simp only [ValidateLog, bind, StateT.bind, viper.Get, pure, StateT.pure, ite_Append_Trace,
      ite_Append_message, errorList_ErrorOrNil, h, ToIntE_int]
    simp [hout]
  · intro hall
    rw [ValidateLog_none_iff, eq_nil_iff_of_all_code _ _ hall, hr]
    simp only [decide_eq_false_iff_not, not_or, not_lt, gt_iff_lt]
  · intro hle hn
    rw [hr]
    simp only [decide_eq_false_iff_not, not_or, not_lt, gt_iff_lt]
    rcases hn with hn | hn <;> subst hn <;> constructor <;> omega
  · intro hn
    rw [hr]
    simp only [decide_eq_true_eq, gt_iff_lt]
    rcases hn with hn | hn <;> subst hn <;> omega

/-- Witness for C2: the sample store with `log.maxSize = 1025`, one above the sample
maximum. -/
theorem ValidateLog_maxSize_bound_witness :
    (sampleStore.set Key.LogMaxSizeKey (Value.int 1025)) Key.LogMaxSizeKey = Value.int 1025
      ∧ (reportsCode MsgCode.ErrNotValidLogMaxSize
            (errorList (ValidateLog sampleConsts sampleEnv
              (sampleStore.set Key.LogMaxSizeKey (Value.int 1025))).1) = true
          ↔ (1025 : Int) < sampleConsts.MinLogMaxSize ∨ (1025 : Int) > sampleConsts.MaxLogMaxSize) :=
  ⟨rfl, (ValidateLog_maxSize_bound sampleConsts sampleEnv
    (sampleStore.set Key.LogMaxSizeKey (Value.int 1025)) 1025 rfl).1⟩

/-- Claim C3, evaluated on the code: for `log.maxBackups = n`, `ValidateLog` reports
`ErrNotValidLogMaxBackups` exactly when `n` is outside the bound of `log.maxDays`,
not the bound of `log.maxBackups`; with the sample constants (maxDays within 1..30,
maxBackups within 1..10) the value 20 is above `MaxLogMaxBackups` and yet the whole log
section is accepted. -/
theorem ValidateLog_maxBackups_checked_against_maxDays :
    (∀ (c : Consts) (env : Env) (s : Store) (n : Int), s Key.LogMaxBackupsKey = Value.int n →
        (reportsCode MsgCode.ErrNotValidLogMaxBackups (errorList (ValidateLog c env s).1) = true
          ↔ n < c.MinLogMaxDays ∨ n > c.MaxLogMaxDays))
      ∧ (20 : Int) > sampleConsts.MaxLogMaxBackups
      ∧ reportsCode MsgCode.ErrNotValidLogMaxBackups
          (errorList (ValidateLog sampleConsts sampleEnv
            (sampleStore.set Key.LogMaxBackupsKey (Value.int 20))).1) = false
      ∧ (ValidateLog sampleConsts sampleEnv
            (sampleStore.set Key.LogMaxBackupsKey (Value.int 20))).1 = none := by
  refine ⟨?_, by decide, ?_, rfl⟩
  · intro c env s n h
    rw [ValidateLog_reports_maxBackups c env s n h]
    simp
  · rw [ValidateLog_reports_maxBackups sampleConsts sampleEnv _ 20 rfl]
    decide

theorem splitChars_ne_nil (sep : Char) (cs : List Char) : splitChars sep cs ≠ [] := by
  cases cs with
  | nil => simp [splitChars]
  | cons a t =>
    unfold splitChars
    split
    · simp
    · split <;> simp

theorem splitChars_no_sep (sep : Char) (cs : List Char) (h : sep ∉ cs) :
    splitChars sep cs = [cs] := by
  induction cs with
  | nil => rfl
  | cons a t ih =>
    have ha : a ≠ sep := fun e => h (by simp [e])
    have ht : sep ∉ t := fun m => h (List.mem_cons_of_mem _ m)
    simp [splitChars, ha, ih ht]

theorem splitChars_length (sep : Char) (cs : List Char) :
    (splitChars sep cs).length = cs.count sep + 1 := by
  induction cs with
  | nil => rfl
  | cons a t ih =>
    unfold splitChars
    by_cases ha : a = sep
    · subst ha
      simp [ih]
    · rw [if_neg ha]
      have hne : (a == sep) = false := by simpa using ha
      rw [List.count_cons, hne]
      cases hsp : splitChars sep t with
      | nil => exact absurd hsp (splitChars_ne_nil sep t)
      | cons p ps =>
        rw [hsp] at ih
        simpa using ih

theorem Split_no_colon (addr : String) (h : ':' ∉ addr.toList) :
    strings.Split addr constant.ColonString = [addr] := by
  unfold strings.Split constant.ColonString
  rw [splitChars_no_sep _ _ h]
  rfl

theorem Split_length (addr : String) :
    (strings.Split addr constant.ColonString).length
      = addr.toList.count constant.ColonString + 1 := by
  unfold strings.Split
  rw [List.length_map, splitChars_length]

theorem intWithin_spec (env : Env) (v : Value) (lo hi : Int) (h : intWithin env v lo hi = true) :
    (cast.ToIntE env v).2 = none ∧ ¬ ((cast.ToIntE env v).1 < lo ∨ (cast.ToIntE env v).1 > hi) := by
  unfold intWithin at h
  simp only [Bool.and_eq_true, Option.isNone_iff_eq_none, decide_eq_true_eq] at h
  refine ⟨h.1.1, ?_⟩
  omega

theorem ValidateServer_errors_of_valid_rest (c : Consts) (env : Env) (s : Store)
    (hpid : serverPidFileValid env s = true)
    (hrt : intWithin env (s Key.ServerReadTimeoutKey) c.MinServerReadTimeout
      c.MaxServerReadTimeout = true)
    (hwt : intWithin env (s Key.ServerWriteTimeoutKey) c.MinServerWriteTimeout
      c.MaxServerWriteTimeout = true) :
    errorList (ValidateServer c env s).1 =
      (if (cast.ToStringE (s Key.ServerAddrKey)).2.isSome
        then (errors.Trace (cast.ToStringE (s Key.ServerAddrKey)).2).toList else [])
      ++ (match strings.Split (cast.ToStringE (s Key.ServerAddrKey)).1 constant.ColonString with
          | [_, port] =>
            if !govalidator.IsPort port
            then [GoError.message MsgCode.ErrNotValidServerPort
              [MsgArg.int env.MinPort, MsgArg.int env.MaxPort, MsgArg.str port]]
            else []
          | _ => [GoError.message MsgCode.ErrNotValidServerAddr
              [MsgArg.str (cast.ToStringE (s Key.ServerAddrKey)).1]]) := by
  obtain ⟨hr1, hr2⟩ := intWithin_spec _ _ _ _ hrt
  obtain ⟨hw1, hw2⟩ := intWithin_spec _ _ _ _ hwt
  unfold serverPidFileValid at hpid
  simp only [Bool.and_eq_true, Option.isNone_iff_eq_none] at hpid
  obtain ⟨hp1, hp2⟩ := hpid
  rcases hsp : strings.Split (cast.ToStringE (s Key.ServerAddrKey)).1 constant.ColonString
    with _ | ⟨a, _ | ⟨b, _ | ⟨d, l⟩⟩⟩
  all_goals
    simp only [ValidateServer, bind, StateT.bind, viper.Get, pure, StateT.pure, hsp,
      ite_Append_Trace, ite_Append_message]
    simp only [Append_message, errorList_ErrorOrNil, List.nil_append, List.append_assoc]
    by_cases habs : env.IsAbs (cast.ToStringE (s Key.ServerPidFileKey)).1 = true
    · simp only [habs, if_true] at hp2
      simp [habs, hp1, hp2, hr1, hr2, hw1, hw2, errors.Trace]
    · simp only [habs, Bool.false_eq_true, if_false, Bool.and_eq_true,
        Option.isNone_iff_eq_none] at hp2
      simp [habs, hp1, hp2.1, hp2.2, hr1, hr2, hw1, hw2, errors.Trace]

theorem ErrorOrNil_of_errors (m : MultiError) (e : GoError) (h : m.Errors = [e]) :
    m.ErrorOrNil = some (GoError.multi [e]) := by
  simp [MultiError.ErrorOrNil, h]

/-- Claim C4: when `server.addr` is a string without a colon and the pid file and both
timeouts satisfy their rules, `ValidateServer` returns exactly one error, the
`ErrNotValidServerAddr` message carrying the address; when the daemon and log sections
return nil as well, the aggregate of `ValidateConfig` holds exactly that error. -/
theorem ValidateServer_no_colon_single_error (c : Consts) (env : Env) (s : Store)
    (addr : String) (haddr : s Key.ServerAddrKey = Value.str addr)
    (hcolon : ':' ∉ addr.toList)
    (hpid : serverPidFileValid env s = true)
    (hrt : intWithin env (s Key.ServerReadTimeoutKey) c.MinServerReadTimeout
      c.MaxServerReadTimeout = true)
    (hwt : intWithin env (s Key.ServerWriteTimeoutKey) c.MinServerWriteTimeout
      c.MaxServerWriteTimeout = true) :
    (ValidateServer c env s).1
        = some (GoError.multi [GoError.message MsgCode.ErrNotValidServerAddr [MsgArg.str addr]])
      ∧ ((ValidateDaemon s).1 = none → (ValidateLog c env s).1 = none →
          (ValidateConfig c env s).1
              = some (GoError.traced (GoError.multi
                  [GoError.message MsgCode.ErrNotValidServerAddr [MsgArg.str addr]]))
            ∧ errorList (ValidateConfig c env s).1
              = [GoError.message MsgCode.ErrNotValidServerAddr [MsgArg.str addr]]) := by
  have herr : errorList (ValidateServer c env s).1
      = [GoError.message MsgCode.ErrNotValidServerAddr [MsgArg.str addr]] := by
    rw [ValidateServer_errors_of_valid_rest c env s hpid hrt hwt, haddr, ToStringE_str,
      Split_no_colon addr hcolon]
    simp
  have hsrv : (ValidateServer c env s).1
      = some (GoError.multi [GoError.message MsgCode.ErrNotValidServerAddr [MsgArg.str addr]]) := by
    obtain ⟨m, hm⟩ := ValidateServer_shape c env s
    rw [hm] at herr ⊢
    rw [errorList_ErrorOrNil] at herr
    exact ErrorOrNil_of_errors m _ herr
  refine ⟨hsrv, ?_⟩
  intro hd hl
  constructor
  · rw [ValidateConfig_run, hd, hl, hsrv]
    simp [multierror.Append, MultiError.ErrorOrNil, errors.Trace]
  · rw [ValidateConfig_errors, hd, hl, herr]
    rfl

/-- Witness for C4: the sample store with `server.addr = "bad-addr"`. -/
theorem ValidateServer_no_colon_single_error_witness :
    (sampleStore.set Key.ServerAddrKey (Value.str "bad-addr")) Key.ServerAddrKey
        = Value.str "bad-addr"
      ∧ ':' ∉ "bad-addr".toList
      ∧ (ValidateServer sampleConsts sampleEnv
          (sampleStore.set Key.ServerAddrKey (Value.str "bad-addr"))).1
        = some (GoError.multi
            [GoError.message MsgCode.ErrNotValidServerAddr [MsgArg.str "bad-addr"]]) :=
  ⟨rfl, by decide,
    (ValidateServer_no_colon_single_error sampleConsts sampleEnv
      (sampleStore.set Key.ServerAddrKey (Value.str "bad-addr")) "bad-addr" rfl (by decide)
      (by decide) (by decide) (by decide)).1⟩

theorem IsPort_iff (port : String) :
    govalidator.IsPort port = true
      ↔ ∃ n : Int, strconv.Atoi port = some n ∧ 1 ≤ n ∧ n ≤ 65535 := by
  unfold govalidator.IsPort
  cases h : strconv.Atoi port with
  | none => simp
  | some i =>
    simp only [Bool.and_eq_true, decide_eq_true_eq, Option.some.injEq, exists_eq_left']
    omega

theorem ValidateServer_addr_codes (c : Consts) (env : Env) (s : Store) (addr : String)
    (haddr : s Key.ServerAddrKey = Value.str addr) :
    (∀ host port, strings.Split addr constant.ColonString = [host, port] →
        reportsCode MsgCode.ErrNotValidServerAddr (errorList (ValidateServer c env s).1) = false
        ∧ reportsCode MsgCode.ErrNotValidServerPort (errorList (ValidateServer c env s).1)
            = !govalidator.IsPort port
        ∧ (govalidator.IsPort port = false →
            GoError.message MsgCode.ErrNotValidServerPort
                [MsgArg.int env.MinPort, MsgArg.int env.MaxPort, MsgArg.str port]
              ∈ errorList (ValidateServer c env s).1))
      ∧ ((strings.Split addr constant.ColonString).length ≠ 2 →
        reportsCode MsgCode.ErrNotValidServerAddr (errorList (ValidateServer c env s).1) = true
        ∧ reportsCode MsgCode.ErrNotValidServerPort (errorList (ValidateServer c env s).1) = false
        ∧ GoError.message MsgCode.ErrNotValidServerAddr [MsgArg.str addr]
              ∈ errorList (ValidateServer c env s).1) := by
  constructor
  · intro host port hsp
    simp only [ValidateServer, bind, StateT.bind, viper.Get, pure, StateT.pure, haddr,
      ToStringE_str, hsp, ite_Append_Trace, ite_Append_message]
    simp only [Append_message, errorList_ErrorOrNil, List.nil_append, List.append_assoc]
    refine ⟨?_, ?_, ?_⟩
    · simp only [reportsCode_append, reportsCode_Trace, reportsCode_message, reportsCode_nil]
      simp
    · simp only [reportsCode_append, reportsCode_Trace, reportsCode_message, reportsCode_nil]
      simp
    · intro hp
      simp [hp]
  · intro hlen
    rcases hsp : strings.Split addr constant.ColonString with _ | ⟨a, _ | ⟨b, _ | ⟨d, l⟩⟩⟩
    all_goals
      first
      | (exfalso; apply hlen; rw [hsp]; rfl)
      | (simp only [ValidateServer, bind, StateT.bind, viper.Get, pure, StateT.pure, haddr,
          ToStringE_str, hsp, ite_Append_Trace, ite_Append_message]
         simp only [Append_message, errorList_ErrorOrNil, List.nil_append, List.append_assoc]
         refine ⟨?_, ?_, ?_⟩
         · simp only [reportsCode_append, reportsCode_Trace, reportsCode_message, reportsCode_nil]
           simp [reportsCode]
         · simp only [reportsCode_append, reportsCode_Trace, reportsCode_message, reportsCode_nil]
           simp [reportsCode]
         · simp)

/-- Claim C5: for a string `server.addr`, `ValidateServer` reports neither
`ErrNotValidServerAddr` nor `ErrNotValidServerPort` exactly when splitting the address
on the colon gives two parts, host and port, and the port is a decimal number within
1..65535; with two parts and any other port it reports `ErrNotValidServerPort` (and not
the address error); when the number of parts is not two it reports
`ErrNotValidServerAddr` (and not the port error); the number of parts is the number of
colons plus one. -/
theorem ValidateServer_addr_rule (c : Consts) (env : Env) (s : Store) (addr : String)
    (haddr : s Key.ServerAddrKey = Value.str addr) :
    ((reportsCode MsgCode.ErrNotValidServerAddr (errorList (ValidateServer c env s).1) = false
          ∧ reportsCode MsgCode.ErrNotValidServerPort (errorList (ValidateServer c env s).1)
            = false)
        ↔ ∃ host port, strings.Split addr constant.ColonString = [host, port]
            ∧ ∃ n : Int, strconv.Atoi port = some n ∧ 1 ≤ n ∧ n ≤ 65535)
      ∧ (∀ host port, strings.Split addr constant.ColonString = [host, port] →
          (¬ ∃ n : Int, strconv.Atoi port = some n ∧ 1 ≤ n ∧ n ≤ 65535) →
          GoError.message MsgCode.ErrNotValidServerPort
              [MsgArg.int env.MinPort, MsgArg.int env.MaxPort, MsgArg.str port]
            ∈ errorList (ValidateServer c env s).1
          ∧ reportsCode MsgCode.ErrNotValidServerAddr (errorList (ValidateServer c env s).1)
            = false)
      ∧ ((strings.Split addr constant.ColonString).length ≠ 2 →
          GoError.message MsgCode.ErrNotValidServerAddr [MsgArg.str addr]
            ∈ errorList (ValidateServer c env s).1
          ∧ reportsCode MsgCode.ErrNotValidServerPort (errorList (ValidateServer c env s).1)
            = false)
      ∧ (strings.Split addr constant.ColonString).length = addr.toList.count ':' + 1 := by
  obtain ⟨h2, hn⟩ := ValidateServer_addr_codes c env s addr haddr
  refine ⟨⟨?_, ?_⟩, ?_, ?_, Split_length addr⟩
  · rintro ⟨ha, hp⟩
    by_cases hlen : (strings.Split addr constant.ColonString).length = 2
    · obtain ⟨host, port, hsp⟩ := List.length_eq_two.mp hlen
      refine ⟨host, port, hsp, ?_⟩
      rw [← IsPort_iff]
      have := (h2 host port hsp).2.1
      rw [hp] at this
      simpa using this.symm
    · rw [(hn hlen).1] at ha
      exact absurd ha (by simp)
  · rintro ⟨host, port, hsp, hnum⟩
    rw [← IsPort_iff] at hnum
    refine ⟨(h2 host port hsp).1, ?_⟩
    rw [(h2 host port hsp).2.1, hnum]
    rfl
  · intro host port hsp hnum
    rw [← IsPort_iff] at hnum
    have hf : govalidator.IsPort port = false := by simpa using hnum
    exact ⟨(h2 host port hsp).2.2 hf, (h2 host port hsp).1⟩
  · intro hlen
    exact ⟨(hn hlen).2.2, (hn hlen).2.1⟩

/-- Witness for C5: the sample store, whose address is `0.0.0.0:8080`. -/
theorem ValidateServer_addr_rule_witness :
    sampleStore Key.ServerAddrKey = Value.str "0.0.0.0:8080"
      ∧ reportsCode MsgCode.ErrNotValidServerAddr
          (errorList (ValidateServer sampleConsts sampleEnv sampleStore).1) = false
      ∧ reportsCode MsgCode.ErrNotValidServerPort
          (errorList (ValidateServer sampleConsts sampleEnv sampleStore).1) = false :=
  ⟨rfl, (ValidateServer_addr_rule sampleConsts sampleEnv sampleStore "0.0.0.0:8080" rfl).1.2
    ⟨"0.0.0.0", "8080", by decide, 8080, by decide, by decide, by decide⟩⟩

/-- Claim C10: `ValidateConfig`, `ValidateDaemon`, `ValidateLog` and `ValidateServer`
leave the store as it is, and running any of them twice in a row on a store yields
the same result both times. -/
theorem validation_leaves_store_and_repeats (c : Consts) (env : Env) (s : Store) :
    ((ValidateConfig c env s).2 = s ∧ (ValidateDaemon s).2 = s
        ∧ (ValidateLog c env s).2 = s ∧ (ValidateServer c env s).2 = s)
      ∧ (do let e₁ ← ValidateConfig c env; let e₂ ← ValidateConfig c env; pure (e₁, e₂)) s
          = (((ValidateConfig c env s).1, (ValidateConfig c env s).1), s)
      ∧ (do let e₁ ← ValidateDaemon; let e₂ ← ValidateDaemon; pure (e₁, e₂)) s
          = (((ValidateDaemon s).1, (ValidateDaemon s).1), s)
      ∧ (do let e₁ ← ValidateLog c env; let e₂ ← ValidateLog c env; pure (e₁, e₂)) s
          = (((ValidateLog c env s).1, (ValidateLog c env s).1), s)
      ∧ (do let e₁ ← ValidateServer c env; let e₂ ← ValidateServer c env; pure (e₁, e₂)) s
          = (((ValidateServer c env s).1, (ValidateServer c env s).1), s) :=
  ⟨⟨rfl, rfl, rfl, rfl⟩, rfl, rfl, rfl, rfl⟩

/-! ## Lemmas on the configuration steps -/

theorem stepsOf_append (t₁ t₂ : List Effect) : stepsOf (t₁ ++ t₂) = stepsOf t₁ ++ stepsOf t₂ := by
  induction t₁ with
  | nil => rfl
  | cons e t ih => cases e <;> simp [stepsOf, ih]

theorem loggerInitialised_append (t₁ t₂ : List Effect) :
    loggerInitialised (t₁ ++ t₂) = (loggerInitialised t₁ || loggerInitialised t₂) := by
  simp [loggerInitialised]

theorem startsServer_append (t₁ t₂ : List Effect) :
    startsServer (t₁ ++ t₂) = (startsServer t₁ || startsServer t₂) := by
  simp [startsServer]

theorem traceSince_append (p q : Proc) (t : List Effect) (h : q.trace = p.trace ++ t) :
    traceSince p q = t := by
  simp [traceSince, h]

theorem traceSince_trans (p q r : Proc) (h₁ : p.trace <+: q.trace) (h₂ : q.trace <+: r.trace) :
    traceSince p r = traceSince p q ++ traceSince q r := by
  obtain ⟨t₁, h₁⟩ := h₁
  obtain ⟨t₂, h₂⟩ := h₂
  rw [traceSince_append p q t₁ h₁.symm, traceSince_append q r t₂ h₂.symm]
  apply traceSince_append
  rw [← h₂, ← h₁, List.append_assoc]

theorem Extends_refl (p : Proc) : p.Extends p :=
  ⟨List.prefix_refl _, rfl, rfl, rfl⟩

theorem Extends_trans (p q r : Proc) (h₁ : p.Extends q) (h₂ : q.Extends r) : p.Extends r :=
  ⟨h₁.1.trans h₂.1, h₂.2.1.trans h₁.2.1, h₂.2.2.1.trans h₁.2.2.1, h₂.2.2.2.trans h₁.2.2.2⟩

theorem initDefaultConfig_run (c : Consts) (env : Env) (sys : Sys) (p : Proc) :
    initDefaultConfig c env sys p =
      match (env.Abs c.DefaultBaseDir).2 with
      | some err =>
        (some (message.NewMessage MsgCode.ErrBaseDir
            [MsgArg.err (GoError.traced err), MsgArg.str c.DefaultCommandName]),
          { p with baseDir := (env.Abs c.DefaultBaseDir).1,
                   trace := p.trace ++ [Effect.enter Func.initDefaultConfig] })
      | none =>
        ((ValidateConfig c env (sys.SetDefaultConfig (env.Abs c.DefaultBaseDir).1 p.store)).1,
          { p with baseDir := (env.Abs c.DefaultBaseDir).1,
                   store := sys.SetDefaultConfig (env.Abs c.DefaultBaseDir).1 p.store,
                   trace := p.trace ++ [Effect.enter Func.initDefaultConfig]
                      ++ [Effect.SetDefaultConfig (env.Abs c.DefaultBaseDir).1] }) := by
  unfold initDefaultConfig
  cases h : (env.Abs c.DefaultBaseDir).2 with
  | some err =>
    simp only [bind, StateT.bind, emit, modify, modifyGet, MonadStateOf.modifyGet,
      StateT.modifyGet, pure, StateT.pure, h]
  | none =>
    simp only [bind, StateT.bind, emit, modify, modifyGet, MonadStateOf.modifyGet,
      StateT.modifyGet, pure, StateT.pure, h, config.SetDefaultConfig, onStore]
    cases h2 : (ValidateConfig c env
      (sys.SetDefaultConfig (env.Abs c.DefaultBaseDir).1 p.store)).1 <;> rfl

theorem initDefaultConfig_trace (c : Consts) (env : Env) (sys : Sys) (p : Proc) :
    p.Extends (initDefaultConfig c env sys p).2
      ∧ stepsOf (traceSince p (initDefaultConfig c env sys p).2) = [Func.initDefaultConfig]
      ∧ loggerInitialised (traceSince p (initDefaultConfig c env sys p).2) = false
      ∧ startsServer (traceSince p (initDefaultConfig c env sys p).2) = false := by
  rw [initDefaultConfig_run]
  cases h : (env.Abs c.DefaultBaseDir).2 <;>
    simp [Proc.Extends, traceSince, stepsOf, loggerInitialised, startsServer,
      List.append_assoc]

theorem ReadConfigFile_trace (c : Consts) (env : Env) (sys : Sys) (p : Proc) :
    p.Extends (ReadConfigFile c env sys p).2
      ∧ stepsOf (traceSince p (ReadConfigFile c env sys p).2) = [Func.ReadConfigFile]
      ∧ loggerInitialised (traceSince p (ReadConfigFile c env sys p).2) = false
      ∧ startsServer (traceSince p (ReadConfigFile c env sys p).2) = false := by
  unfold ReadConfigFile
  by_cases hc : sys.cfgFile ≠ constant.EmptyString ∧ sys.cfgFile ≠ sys.DefaultRandomString
  · cases h : (sys.ReadInConfig sys.cfgFile p.store).2 with
    | some err =>
      simp [bind, StateT.bind, emit, pure, StateT.pure, hc, viper.SetConfigFile,
        viper.ReadInConfig, h, Proc.Extends, traceSince, stepsOf, loggerInitialised,
        startsServer, List.append_assoc]
    | none =>
      cases h2 : (ValidateConfig c env (sys.ReadInConfig sys.cfgFile p.store).1).1 <;>
      simp [bind, StateT.bind, emit, pure, StateT.pure, hc, viper.SetConfigFile,
        viper.ReadInConfig, h, h2, onStore, Proc.Extends, traceSince, stepsOf, loggerInitialised,
        startsServer, List.append_assoc]
  · simp [bind, StateT.bind, emit, pure, StateT.pure, hc, Proc.Extends, traceSince, stepsOf,
      loggerInitialised, startsServer]

theorem OverrideConfigByCLI_trace (sys : Sys) (p : Proc) :
    p.Extends (OverrideConfigByCLI sys p).2
      ∧ stepsOf (traceSince p (OverrideConfigByCLI sys p).2) = [Func.OverrideConfigByCLI]
      ∧ loggerInitialised (traceSince p (OverrideConfigByCLI sys p).2) = false
      ∧ startsServer (traceSince p (OverrideConfigByCLI sys p).2) = false := by
  simp [OverrideConfigByCLI, Proc.Extends, traceSince, stepsOf, loggerInitialised, startsServer]

theorem traceSince_self (p : Proc) : traceSince p p = [] := by
  simp [traceSince]

theorem Quiet_pure {α : Type} (a : α) : Quiet (pure a : StateM Proc α) := by
  constructor
  intro p
  show p.Extends p ∧ stepsOf (traceSince p p) = [] ∧ startsServer (traceSince p p) = false
    ∧ p.store = p.store
  rw [traceSince_self]
  exact ⟨Extends_refl p, rfl, rfl, rfl⟩

theorem Quiet_bind {α β : Type} (m : StateM Proc α) (f : α → StateM Proc β)
    (hm : Quiet m) (hf : ∀ a, Quiet (f a)) : Quiet (m >>= f) := by
  constructor
  intro p
  have h1 := hm.run p
  have h2 := (hf (m p).1).run (m p).2
  have e : (m >>= f) p = f (m p).1 (m p).2 := rfl
  rw [e]
  refine ⟨Extends_trans _ _ _ h1.1 h2.1, ?_, ?_, h2.2.2.2.trans h1.2.2.2⟩
  · rw [traceSince_trans _ _ _ h1.1.1 h2.1.1, stepsOf_append, h1.2.1, h2.2.1]
    rfl
  · rw [traceSince_trans _ _ _ h1.1.1 h2.1.1, startsServer_append, h1.2.2.1, h2.2.2.1]
    rfl

theorem Quiet_emit (e : Effect) (h₁ : stepsOf [e] = []) (h₂ : startsServer [e] = false) :
    Quiet (emit e) := by
  constructor
  intro p
  have ht : traceSince p (emit e p).2 = [e] := traceSince_append _ _ _ rfl
  exact ⟨⟨⟨[e], rfl⟩, rfl, rfl, rfl⟩, by rw [ht, h₁], by rw [ht, h₂], rfl⟩

theorem Quiet_GetString (key : Key) : Quiet (viper.GetString key) := by
  constructor
  intro p
  show p.Extends p ∧ stepsOf (traceSince p p) = [] ∧ startsServer (traceSince p p) = false
    ∧ p.store = p.store
  rw [traceSince_self]
  exact ⟨Extends_refl p, rfl, rfl, rfl⟩

theorem Quiet_GetInt (env : Env) (key : Key) : Quiet (viper.GetInt env key) := by
  constructor
  intro p
  show p.Extends p ∧ stepsOf (traceSince p p) = [] ∧ startsServer (traceSince p p) = false
    ∧ p.store = p.store
  rw [traceSince_self]
  exact ⟨Extends_refl p, rfl, rfl, rfl⟩

theorem Quiet_GetBool (key : Key) : Quiet (viper.GetBool key) := by
  constructor
  intro p
  show p.Extends p ∧ stepsOf (traceSince p p) = [] ∧ startsServer (traceSince p p) = false
    ∧ p.store = p.store
  rw [traceSince_self]
  exact ⟨Extends_refl p, rfl, rfl, rfl⟩

theorem Quiet_InitFileLogger (sys : Sys) (fileName level format : String)
    (maxSize maxDays maxBackups : Int) :
    Quiet (log.InitFileLogger sys fileName level format maxSize maxDays maxBackups) := by
  constructor
  intro p
  have ht : traceSince p
      (log.InitFileLogger sys fileName level format maxSize maxDays maxBackups p).2
      = [Effect.InitFileLogger fileName level format maxSize maxDays maxBackups] :=
    traceSince_append _ _ _ rfl
  exact ⟨⟨⟨_, rfl⟩, rfl, rfl, rfl⟩, by rw [ht]; rfl, by rw [ht]; rfl, rfl⟩

theorem Quiet_Rotate (sys : Sys) : Quiet (log.Rotate sys) := by
  constructor
  intro p
  have ht : traceSince p (log.Rotate sys p).2 = [Effect.Rotate] := traceSince_append _ _ _ rfl
  exact ⟨⟨⟨_, rfl⟩, rfl, rfl, rfl⟩, by rw [ht]; rfl, by rw [ht]; rfl, rfl⟩

theorem initLog_quiet (env : Env) (sys : Sys) : Quiet (initLog env sys) := by
  unfold initLog
  repeat' first
    | exact Quiet_GetString _
    | exact Quiet_GetInt _ _
    | exact Quiet_GetBool _
    | exact Quiet_InitFileLogger _ _ _ _ _ _ _
    | exact Quiet_Rotate _
    | exact Quiet_emit _ rfl rfl
    | exact Quiet_pure _
    | apply Quiet_bind
    | intro _
    | split
    | dsimp only

theorem StateM_bind_apply {α β : Type} (m : StateM Proc α) (f : α → StateM Proc β) (p : Proc) :
    (m >>= f) p = f (m p).1 (m p).2 := rfl

theorem StateM_pure_apply {α : Type} (a : α) (p : Proc) : (pure a : StateM Proc α) p = (a, p) :=
  rfl

theorem initConfig_run (c : Consts) (env : Env) (sys : Sys) (p : Proc) :
    initConfig c env sys p =
      match (afterDefaults c env sys p).1 with
      | some e =>
        (some (message.NewMessage MsgCode.ErrInitDefaultConfig [MsgArg.errText e]),
          (afterDefaults c env sys p).2)
      | none =>
        match (afterFile c env sys p).1 with
        | some e =>
          (some (message.NewMessage MsgCode.ErrInitDefaultConfig [MsgArg.err e]),
            (afterFile c env sys p).2)
        | none =>
          match (afterCLI c env sys p).1 with
          | some e =>
            (some (message.NewMessage MsgCode.ErrOverrideCommandLineArgs [MsgArg.err e]),
              (afterCLI c env sys p).2)
          | none => initLog env sys (afterCLI c env sys p).2 := by
  unfold initConfig afterCLI afterFile afterDefaults
  rw [StateM_bind_apply]
  cases h1 : (initDefaultConfig c env sys p).1 with
  | some e => rfl
  | none =>
    simp only []
    rw [StateM_bind_apply]
    cases h2 : (ReadConfigFile c env sys (initDefaultConfig c env sys p).2).1 with
    | some e => rfl
    | none =>
      simp only []
      rw [StateM_bind_apply]
      cases h3 : (OverrideConfigByCLI sys
        (ReadConfigFile c env sys (initDefaultConfig c env sys p).2).2).1 <;> rfl

theorem trace_chain (p q r : Proc) (fs gs : List Func)
    (h₁ : p.Extends q ∧ stepsOf (traceSince p q) = fs
      ∧ loggerInitialised (traceSince p q) = false ∧ startsServer (traceSince p q) = false)
    (h₂ : q.Extends r ∧ stepsOf (traceSince q r) = gs
      ∧ loggerInitialised (traceSince q r) = false ∧ startsServer (traceSince q r) = false) :
    p.Extends r ∧ stepsOf (traceSince p r) = fs ++ gs
      ∧ loggerInitialised (traceSince p r) = false ∧ startsServer (traceSince p r) = false := by
  have t := traceSince_trans p q r h₁.1.1 h₂.1.1
  refine ⟨Extends_trans _ _ _ h₁.1 h₂.1, ?_, ?_, ?_⟩
  · rw [t, stepsOf_append, h₁.2.1, h₂.2.1]
  · rw [t, loggerInitialised_append, h₁.2.2.1, h₂.2.2.1]
    rfl
  · rw [t, startsServer_append, h₁.2.2.2, h₂.2.2.2]
    rfl

theorem stages_trace (c : Consts) (env : Env) (sys : Sys) (p : Proc) :
    (p.Extends (afterDefaults c env sys p).2
        ∧ stepsOf (traceSince p (afterDefaults c env sys p).2) = [Func.initDefaultConfig]
        ∧ loggerInitialised (traceSince p (afterDefaults c env sys p).2) = false
        ∧ startsServer (traceSince p (afterDefaults c env sys p).2) = false)
      ∧ (p.Extends (afterFile c env sys p).2
        ∧ stepsOf (traceSince p (afterFile c env sys p).2)
            = [Func.initDefaultConfig, Func.ReadConfigFile]
        ∧ loggerInitialised (traceSince p (afterFile c env sys p).2) = false
        ∧ startsServer (traceSince p (afterFile c env sys p).2) = false)
      ∧ (p.Extends (afterCLI c env sys p).2
        ∧ stepsOf (traceSince p (afterCLI c env sys p).2)
            = [Func.initDefaultConfig, Func.ReadConfigFile, Func.OverrideConfigByCLI]
        ∧ loggerInitialised (traceSince p (afterCLI c env sys p).2) = false
        ∧ startsServer (traceSince p (afterCLI c env sys p).2) = false)
      ∧ (p.Extends (initLog env sys (afterCLI c env sys p).2).2
        ∧ stepsOf (traceSince p (initLog env sys (afterCLI c env sys p).2).2)
            = [Func.initDefaultConfig, Func.ReadConfigFile, Func.OverrideConfigByCLI]
        ∧ startsServer (traceSince p (initLog env sys (afterCLI c env sys p).2).2) = false) := by
  have h1 : p.Extends (afterDefaults c env sys p).2
      ∧ stepsOf (traceSince p (afterDefaults c env sys p).2) = [Func.initDefaultConfig]
      ∧ loggerInitialised (traceSince p (afterDefaults c env sys p).2) = false
      ∧ startsServer (traceSince p (afterDefaults c env sys p).2) = false :=
    initDefaultConfig_trace c env sys p
  have h2 := trace_chain p _ (afterFile c env sys p).2 _ _ h1
    (ReadConfigFile_trace c env sys (afterDefaults c env sys p).2)
  have h3 := trace_chain p _ (afterCLI c env sys p).2 _ _ h2
    (OverrideConfigByCLI_trace sys (afterFile c env sys p).2)
  have h4 := (initLog_quiet env sys).run (afterCLI c env sys p).2
  have t4 := traceSince_trans p _ _ h3.1.1 h4.1.1
  refine ⟨h1, h2, h3, Extends_trans _ _ _ h3.1 h4.1, ?_, ?_⟩
  · rw [t4, stepsOf_append, h4.2.1, h3.2.1]
    rfl
  · rw [t4, startsServer_append, h4.2.2.1, h3.2.2.2]
    rfl

/-- Claim C9: `initConfig` enters `initDefaultConfig`, `ReadConfigFile` and
`OverrideConfigByCLI` in that order; when one of them returns an error, `initConfig`
returns an error in the state that step left, so no later step has been entered and
the logger has not been initialised; when all three succeed it goes on to the logger
initialisation; and whenever the logger has been initialised, all three steps returned
nil. -/
theorem initConfig_steps_in_order (c : Consts) (env : Env) (sys : Sys) (p : Proc) :
    ((afterDefaults c env sys p).1.isSome = true →
        (initConfig c env sys p).1.isSome = true
        ∧ (initConfig c env sys p).2 = (afterDefaults c env sys p).2
        ∧ stepsOf (traceSince p (initConfig c env sys p).2) = [Func.initDefaultConfig]
        ∧ loggerInitialised (traceSince p (initConfig c env sys p).2) = false)
      ∧ ((afterDefaults c env sys p).1 = none → (afterFile c env sys p).1.isSome = true →
        (initConfig c env sys p).1.isSome = true
        ∧ (initConfig c env sys p).2 = (afterFile c env sys p).2
        ∧ stepsOf (traceSince p (initConfig c env sys p).2)
            = [Func.initDefaultConfig, Func.ReadConfigFile]
        ∧ loggerInitialised (traceSince p (initConfig c env sys p).2) = false)
      ∧ ((afterDefaults c env sys p).1 = none → (afterFile c env sys p).1 = none →
          (afterCLI c env sys p).1.isSome = true →
        (initConfig c env sys p).1.isSome = true
        ∧ (initConfig c env sys p).2 = (afterCLI c env sys p).2
        ∧ stepsOf (traceSince p (initConfig c env sys p).2)
            = [Func.initDefaultConfig, Func.ReadConfigFile, Func.OverrideConfigByCLI]
        ∧ loggerInitialised (traceSince p (initConfig c env sys p).2) = false)
      ∧ ((afterDefaults c env sys p).1 = none → (afterFile c env sys p).1 = none →
          (afterCLI c env sys p).1 = none →
        initConfig c env sys p = initLog env sys (afterCLI c env sys p).2
        ∧ stepsOf (traceSince p (initConfig c env sys p).2)
            = [Func.initDefaultConfig, Func.ReadConfigFile, Func.OverrideConfigByCLI])
      ∧ (loggerInitialised (traceSince p (initConfig c env sys p).2) = true →
        (afterDefaults c env sys p).1 = none ∧ (afterFile c env sys p).1 = none
          ∧ (afterCLI c env sys p).1 = none) := by
  obtain ⟨⟨_, s1, l1, _⟩, ⟨_, s2, l2, _⟩, ⟨_, s3, l3, _⟩, ⟨_, s4, _⟩⟩ := stages_trace c env sys p
  have hrun := initConfig_run c env sys p
  refine ⟨?_, ?_, ?_, ?_, ?_⟩
  · intro h1
    obtain ⟨e, he⟩ := Option.isSome_iff_exists.mp h1
    rw [he] at hrun
    simp only [] at hrun
    rw [hrun]
    exact ⟨rfl, rfl, s1, l1⟩
  · intro h1 h2
    obtain ⟨e, he⟩ := Option.isSome_iff_exists.mp h2
    rw [h1, he] at hrun
    simp only [] at hrun
    rw [hrun]
    exact ⟨rfl, rfl, s2, l2⟩
  · intro h1 h2 h3
    obtain ⟨e, he⟩ := Option.isSome_iff_exists.mp h3
    rw [h1, h2, he] at hrun
    simp only [] at hrun
    rw [hrun]
    exact ⟨rfl, rfl, s3, l3⟩
  · intro h1 h2 h3
    rw [h1, h2, h3] at hrun
    simp only [] at hrun
    rw [hrun]
    exact ⟨rfl, s4⟩
  · intro hlog
    cases h1 : (afterDefaults c env sys p).1 with
    | some e =>
      rw [h1] at hrun
      simp only [] at hrun
      rw [hrun, l1] at hlog
      exact absurd hlog (by simp)
    | none =>
      cases h2 : (afterFile c env sys p).1 with
      | some e =>
        rw [h1, h2] at hrun
        simp only [] at hrun
        rw [hrun, l2] at hlog
        exact absurd hlog (by simp)
      | none =>
        cases h3 : (afterCLI c env sys p).1 with
        | some e =>
          rw [h1, h2, h3] at hrun
          simp only [] at hrun
          rw [hrun, l3] at hlog
          exact absurd hlog (by simp)
        | none => exact ⟨rfl, rfl, rfl⟩

/-! ## The start command -/

set_option maxRecDepth 100000

theorem setDaemonFalse_upto (c : Consts) (l : List String) (k : Nat) (hk : k ≤ l.length) :
    (List.range k).foldl
        (fun args i =>
          match args[i]? with
          | some arg =>
            if c.TrimSpaceOfArg arg = c.DaemonArgTrue then args.set i c.DaemonArgFalse else args
          | none => args)
        l
      = (l.take k).map
          (fun a => if c.TrimSpaceOfArg a = c.DaemonArgTrue then c.DaemonArgFalse else a)
        ++ l.drop k := by
  induction k with
  | zero => simp
  | succ k ih =>
    have hlt : k < l.length := hk
    rw [List.range_succ, List.foldl_append, ih (Nat.le_of_lt hlt)]
    have hlen : ((l.take k).map
        (fun a => if c.TrimSpaceOfArg a = c.DaemonArgTrue then c.DaemonArgFalse else a)).length
        = k := by
      simp [Nat.min_eq_left (Nat.le_of_lt hlt)]
    have hdrop : l.drop k = l[k] :: l.drop (k + 1) := List.drop_eq_getElem_cons hlt
    have htake : l.take (k + 1) = l.take k ++ [l[k]] := by
      rw [List.take_succ, List.getElem?_eq_getElem hlt]
      rfl
    simp only [List.foldl_cons, List.foldl_nil]
    rw [List.getElem?_append_right (by rw [hlen]), hlen, Nat.sub_self, hdrop]
    simp only [List.getElem?_cons_zero]
    rw [htake, List.map_append]
    by_cases hc : c.TrimSpaceOfArg l[k] = c.DaemonArgTrue
    · simp only [hc, if_true]
      rw [List.set_append_right _ _ (by rw [hlen]), hlen, Nat.sub_self]
      simp only [List.set_cons_zero, List.map_cons, List.map_nil, hc, if_true,
        List.append_assoc, List.singleton_append]
    · simp only [List.map_cons, List.map_nil, hc, if_false, List.append_assoc,
        List.singleton_append]

theorem setDaemonFalse_eq_map (c : Consts) (args : List String) :
    setDaemonFalse c args
      = args.map
          (fun a => if c.TrimSpaceOfArg a = c.DaemonArgTrue then c.DaemonArgFalse else a) := by
  unfold setDaemonFalse
  rw [setDaemonFalse_upto c args args.length (Nat.le_refl _)]
  simp

theorem StateM_map_apply {α β : Type} (f : α → β) (m : StateM Proc α) (p : Proc) :
    (f <$> m) p = (f (m p).1, (m p).2) := rfl

theorem initConfig_frame (c : Consts) (env : Env) (sys : Sys) (p : Proc) :
    p.Extends (initConfig c env sys p).2
      ∧ startsServer (traceSince p (initConfig c env sys p).2) = false := by
  obtain ⟨⟨e1, _, _, r1⟩, ⟨e2, _, _, r2⟩, ⟨e3, _, _, r3⟩, ⟨e4, _, r4⟩⟩ := stages_trace c env sys p
  rw [initConfig_run]
  cases h1 : (afterDefaults c env sys p).1 with
  | some e => exact ⟨e1, r1⟩
  | none =>
    cases h2 : (afterFile c env sys p).1 with
    | some e => exact ⟨e2, r2⟩
    | none =>
      cases h3 : (afterCLI c env sys p).1 with
      | some e => exact ⟨e3, r3⟩
      | none => exact ⟨e4, r4⟩

theorem start_frame_emit (p q : Proc) (e : Effect) (hq : p.Extends q)
    (hs : startsServer (traceSince p q) = false) (he : startsServer [e] = false) :
    p.Extends (emit e q).2 ∧ startsServer (traceSince p (emit e q).2) = false := by
  have hx : q.Extends (emit e q).2 := ⟨⟨[e], rfl⟩, rfl, rfl, rfl⟩
  have ht : traceSince q (emit e q).2 = [e] := traceSince_append _ _ _ rfl
  refine ⟨Extends_trans _ _ _ hq hx, ?_⟩
  rw [traceSince_trans p q _ hq.1 hx.1, startsServer_append, hs, ht, he]
  rfl

/-- Claim C6: when the configured pid file exists and the liveness check reports a
running instance, the start command ends with the abnormal exit code, which is not
zero, its trace holds no pid-file write, no relaunch and no signal wait, and the pid
files are as they were. -/
theorem start_refuses_when_running (c : Consts) (env : Env) (sys : Sys) (p : Proc)
    (hexists : sys.PathExists (configuredPidFile c env sys p) = (true, none))
    (hrunning : sys.IsRunningWithPidFile (configuredPidFile c env sys p) = (true, none)) :
    (startCmd.Run c env sys p).1 = some constant.DefaultAbnormalExitCode
      ∧ constant.DefaultAbnormalExitCode ≠ 0
      ∧ startsServer (traceSince p (startCmd.Run c env sys p).2) = false
      ∧ (startCmd.Run c env sys p).2.pidFiles = p.pidFiles
      ∧ p.trace <+: (startCmd.Run c env sys p).2.trace := by
  obtain ⟨hq, hs⟩ := initConfig_frame c env sys p
  unfold configuredPidFile at hexists hrunning
  unfold startCmd.Run
  rw [StateM_bind_apply]
  cases hi : (initConfig c env sys p).1 with
  | some e =>
    simp only [StateM_map_apply]
    have := start_frame_emit p _ (Effect.Println (message.NewMessage MsgCode.ErrInitConfig
      [MsgArg.err e])) hq hs rfl
    exact ⟨rfl, by decide, this.2, this.1.2.1, this.1.1⟩
  | none =>
    simp only [StateM_bind_apply, viper.GetString, hexists, hrunning, if_true, StateM_map_apply]
    have := start_frame_emit p _ (Effect.Errorf (message.NewMessage MsgCode.ErrServerIsRunning
      [MsgArg.str (cast.ToStringE ((initConfig c env sys p).2.store Key.ServerPidFileKey)).1]))
      hq hs rfl
    exact ⟨rfl, by decide, this.2, this.1.2.1, this.1.1⟩

theorem pair_eq_of_isNone (r : Bool × Option GoError) (b : Bool) (h₁ : r.1 = b)
    (h₂ : r.2.isNone = true) : r = (b, none) :=
  Prod.ext h₁ (Option.isNone_iff_eq_none.mp h₂)

/-- Witness for C6: the sample inputs with a live process behind the pid file. -/
theorem start_refuses_when_running_witness :
    (sampleSys false false true).PathExists
        (configuredPidFile sampleConsts sampleEnv (sampleSys false false true)
          (sampleProc ["start"])) = (true, none)
      ∧ (startCmd.Run sampleConsts sampleEnv (sampleSys false false true)
          (sampleProc ["start"])).1 = some constant.DefaultAbnormalExitCode :=
  ⟨pair_eq_of_isNone _ _ (by decide) (by decide),
    (start_refuses_when_running sampleConsts sampleEnv (sampleSys false false true)
      (sampleProc ["start"]) (pair_eq_of_isNone _ _ (by decide) (by decide))
      (pair_eq_of_isNone _ _ (by decide) (by decide))).1⟩

/-- Claim C7, amended: when `initConfig` succeeded, the configured pid file exists, the
liveness check reports no running instance without failing, and the daemon flag is
false, the next effect of the start command is `SavePid` with the pid of the current
process at the configured path; when that write succeeds the pid file holds this pid
and the command then logs the start and waits for signals; when it fails the command
ends with the abnormal exit code without waiting. -/
theorem start_saves_pid_in_foreground (c : Consts) (env : Env) (sys : Sys) (p : Proc)
    (hinit : (initConfig c env sys p).1 = none)
    (hexists : sys.PathExists (configuredPidFile c env sys p) = (true, none))
    (hdead : sys.IsRunningWithPidFile (configuredPidFile c env sys p) = (false, none))
    (hfg : configuredDaemon c env sys p = false) :
    (sys.SavePid sys.Getpid (configuredPidFile c env sys p) sys.DefaultFileMode = none →
        (startCmd.Run c env sys p).1 = none
        ∧ traceSince (initConfig c env sys p).2 (startCmd.Run c env sys p).2
          = [Effect.SavePid sys.Getpid (configuredPidFile c env sys p) sys.DefaultFileMode,
             Effect.Info (message.NewMessage MsgCode.InfoServerStart
               [MsgArg.int sys.Getpid, MsgArg.str (configuredPidFile c env sys p)]),
             Effect.HandleSignalsWithPidFile (configuredPidFile c env sys p)]
        ∧ (startCmd.Run c env sys p).2.pidFiles (configuredPidFile c env sys p)
          = some sys.Getpid)
      ∧ (∀ e, sys.SavePid sys.Getpid (configuredPidFile c env sys p) sys.DefaultFileMode
            = some e →
        (startCmd.Run c env sys p).1 = some constant.DefaultAbnormalExitCode
        ∧ traceSince (initConfig c env sys p).2 (startCmd.Run c env sys p).2
          = [Effect.SavePid sys.Getpid (configuredPidFile c env sys p) sys.DefaultFileMode,
             Effect.Errorf (message.NewMessage MsgCode.ErrSavePidToFile [MsgArg.err e])]) := by
  unfold configuredPidFile at *
  unfold configuredDaemon at hfg
  unfold startCmd.Run
  rw [StateM_bind_apply, hinit]
  constructor
  · intro hsave
    simp [StateM_bind_apply, viper.GetString, viper.GetBool, hexists, hdead,
      StateM_map_apply, hfg, linux.SavePid, hsave, emit, traceSince, StateM_pure_apply]
  · intro e hsave
    simp [StateM_bind_apply, viper.GetString, viper.GetBool, hexists, hdead,
      StateM_map_apply, hfg, linux.SavePid, hsave, emit, traceSince, StateM_pure_apply]

/-- Witness for C7 as amended: the sample inputs with a stale pid file and the daemon
flag false. -/
theorem start_saves_pid_in_foreground_witness :
    (initConfig sampleConsts sampleEnv (sampleSys false false false) (sampleProc ["start"])).1
        = none
      ∧ configuredDaemon sampleConsts sampleEnv (sampleSys false false false)
          (sampleProc ["start"]) = false
      ∧ (startCmd.Run sampleConsts sampleEnv (sampleSys false false false)
          (sampleProc ["start"])).2.pidFiles
            (configuredPidFile sampleConsts sampleEnv (sampleSys false false false)
              (sampleProc ["start"]))
          = some (sampleSys false false false).Getpid :=
  ⟨Option.isNone_iff_eq_none.mp (by decide), by decide,
    ((start_saves_pid_in_foreground sampleConsts sampleEnv (sampleSys false false false)
      (sampleProc ["start"]) (Option.isNone_iff_eq_none.mp (by decide))
      (pair_eq_of_isNone _ _ (by decide) (by decide))
      (pair_eq_of_isNone _ _ (by decide) (by decide)) (by decide)).1 rfl).2.2⟩

/-- Counterexample to C7 as stated: with a stale pid file and the daemon flag set to
true on the command line, the start command relaunches itself and exits; it neither
writes the pid file nor waits for signals. -/
theorem start_in_daemon_mode_saves_no_pid :
    ¬ ∀ (c : Consts) (env : Env) (sys : Sys) (p : Proc),
        (initConfig c env sys p).1 = none →
        sys.PathExists (configuredPidFile c env sys p) = (true, none) →
        sys.IsRunningWithPidFile (configuredPidFile c env sys p) = (false, none) →
        savesPid (traceSince p (startCmd.Run c env sys p).2) = true
          ∧ (startCmd.Run c env sys p).2.pidFiles (configuredPidFile c env sys p)
            = some sys.Getpid
          ∧ waitsForSignals (traceSince p (startCmd.Run c env sys p).2) = true := by
  intro h
  have h' := h sampleConsts sampleEnv (sampleSys false true false)
    (sampleProc ["start", "--daemon=true"]) (Option.isNone_iff_eq_none.mp (by decide))
    (pair_eq_of_isNone _ _ (by decide) (by decide))
    (pair_eq_of_isNone _ _ (by decide) (by decide))
  exact absurd h'.1 (by decide)

/-- Claim C8, evaluated on the code: the loop of the daemon branch maps every argument
that `TrimSpaceOfArg` turns into `DaemonArgTrue` to `DaemonArgFalse` and keeps every
other argument, in order; when the daemon flag comes from the config file and the
arguments are `start --config=app.yaml`, the child is started with exactly these
arguments, which do not hold `DaemonArgFalse`, and the parent exits with code zero. -/
theorem start_daemon_child_args :
    (∀ (c : Consts) (args : List String),
        setDaemonFalse c args
          = args.map
              (fun a => if c.TrimSpaceOfArg a = c.DaemonArgTrue then c.DaemonArgFalse else a))
      ∧ configuredDaemon sampleConsts sampleEnv (sampleSys true false false)
          (sampleProc ["start", "--config=app.yaml"]) = true
      ∧ childArgs (startCmd.Run sampleConsts sampleEnv (sampleSys true false false)
          (sampleProc ["start", "--config=app.yaml"])).2.trace
        = some ["start", "--config=app.yaml"]
      ∧ sampleConsts.DaemonArgFalse ∉ ["start", "--config=app.yaml"]
      ∧ (startCmd.Run sampleConsts sampleEnv (sampleSys true false false)
          (sampleProc ["start", "--config=app.yaml"])).1
        = some constant.DefaultNormalExitCode :=
  ⟨setDaemonFalse_eq_map, by decide, by decide, by decide, by decide⟩
/-! ## Bounds cited by the timeout messages -/

theorem ValidateServer_cites_readTimeout (c : Consts) (env : Env) (s : Store) (n : Int)
    (h : s Key.ServerReadTimeoutKey = Value.int n)
    (hout : n < c.MinServerReadTimeout ∨ n > c.MaxServerReadTimeout) :
    GoError.message MsgCode.ErrNotValidServerReadTimeout
        [MsgArg.int c.MinServerReadTimeout, MsgArg.int c.MaxServerWriteTimeout, MsgArg.int n]
      ∈ errorList (ValidateServer c env s).1 := by
  rcases hsp : strings.Split (cast.ToStringE (s Key.ServerAddrKey)).1 constant.ColonString
    with _ | ⟨a, _ | ⟨b, _ | ⟨d, l⟩⟩⟩
  all_goals
    simp only [ValidateServer, bind, StateT.bind, viper.Get, pure, StateT.pure, hsp, h,
      ToIntE_int, ite_Append_Trace, ite_Append_message]
    simp only [Append_message, errorList_ErrorOrNil, List.nil_append, List.append_assoc]
    simp [hout]

theorem ValidateServer_cites_writeTimeout (c : Consts) (env : Env) (s : Store) (n : Int)
    (h : s Key.ServerWriteTimeoutKey = Value.int n)
    (hout : n < c.MinServerWriteTimeout ∨ n > c.MaxServerWriteTimeout) :
    GoError.message MsgCode.ErrNotValidServerWriteTimeout
        [MsgArg.int c.MinServerWriteTimeout, MsgArg.int c.MaxServerWriteTimeout, MsgArg.int n]
      ∈ errorList (ValidateServer c env s).1 := by
  rcases hsp : strings.Split (cast.ToStringE (s Key.ServerAddrKey)).1 constant.ColonString
    with _ | ⟨a, _ | ⟨b, _ | ⟨d, l⟩⟩⟩
  all_goals
    simp only [ValidateServer, bind, StateT.bind, viper.Get, pure, StateT.pure, hsp, h,
      ToIntE_int, ite_Append_Trace, ite_Append_message]
    simp only [Append_message, errorList_ErrorOrNil, List.nil_append, List.append_assoc]
    simp [hout]

theorem sample_readTimeout_errors :
    errorList (ValidateServer sampleConsts sampleEnv
        (sampleStore.set Key.ServerReadTimeoutKey (Value.int 61))).1
      = [GoError.message MsgCode.ErrNotValidServerReadTimeout
          [MsgArg.int 0, MsgArg.int 120, MsgArg.int 61]] := rfl

/-- Claim C11, evaluated on the code: when `server.readTimeout = n` is outside
`MinServerReadTimeout..MaxServerReadTimeout`, the `ErrNotValidServerReadTimeout`
message cites `MinServerReadTimeout`, `MaxServerWriteTimeout` and `n`, that is, the
maximum of the write timeout and not the one the check used; the message for
`server.writeTimeout` cites its own two bounds. With the sample constants (read
timeout within 0..60, write timeout within 1..120) the value 61 is rejected by a
message citing 0..120, and no message citing 0..60 is reported. -/
theorem ValidateServer_readTimeout_cites_write_bound :
    (∀ (c : Consts) (env : Env) (s : Store) (n : Int),
        s Key.ServerReadTimeoutKey = Value.int n →
        n < c.MinServerReadTimeout ∨ n > c.MaxServerReadTimeout →
        GoError.message MsgCode.ErrNotValidServerReadTimeout
            [MsgArg.int c.MinServerReadTimeout, MsgArg.int c.MaxServerWriteTimeout, MsgArg.int n]
          ∈ errorList (ValidateServer c env s).1)
      ∧ (∀ (c : Consts) (env : Env) (s : Store) (n : Int),
        s Key.ServerWriteTimeoutKey = Value.int n →
        n < c.MinServerWriteTimeout ∨ n > c.MaxServerWriteTimeout →
        GoError.message MsgCode.ErrNotValidServerWriteTimeout
            [MsgArg.int c.MinServerWriteTimeout, MsgArg.int c.MaxServerWriteTimeout,
              MsgArg.int n]
          ∈ errorList (ValidateServer c env s).1)
      ∧ (61 : Int) > sampleConsts.MaxServerReadTimeout
      ∧ errorList (ValidateServer sampleConsts sampleEnv
            (sampleStore.set Key.ServerReadTimeoutKey (Value.int 61))).1
          = [GoError.message MsgCode.ErrNotValidServerReadTimeout
              [MsgArg.int sampleConsts.MinServerReadTimeout,
                MsgArg.int sampleConsts.MaxServerWriteTimeout, MsgArg.int 61]]
      ∧ GoError.message MsgCode.ErrNotValidServerReadTimeout
            [MsgArg.int sampleConsts.MinServerReadTimeout,
              MsgArg.int sampleConsts.MaxServerReadTimeout, MsgArg.int 61]
          ∉ errorList (ValidateServer sampleConsts sampleEnv
              (sampleStore.set Key.ServerReadTimeoutKey (Value.int 61))).1 := by
  refine ⟨ValidateServer_cites_readTimeout, ValidateServer_cites_writeTimeout, by decide,
    sample_readTimeout_errors, ?_⟩
  rw [sample_readTimeout_errors]
  simp [sampleConsts]

end GoTemplate
